import Mathlib

/-!
Verification of the `qmanual` scaffold generator (files `spec.py`,
`generator.py`, `cli.py`, plus the Jinja templates embedded in `build.py`).

Modelling conventions (shallow embedding):
* Python `str` is modelled as `List Char` (named `Str` below); string
  literals are written `"...".data`.
* A parsed YAML document is modelled by the inductive `Yaml`
  (`yaml.safe_load` output: `None`, booleans, integers, strings,
  sequences, mappings).  Python `dict`s become association lists; lookup
  takes the first matching key, mirroring the uniqueness of dict keys.
* Python exceptions raised by `load_spec` become the `LoadError` type:
  `missingField k` models the `KeyError` raised by `i["path"]` /
  `i["title"]` (the spec's "MissingFieldError"), `typeError` collapses
  the `TypeError` / `AttributeError` / `ValueError` family raised when a
  document binds a structural key to a value of the wrong shape.
* The file system seen by `generate_manual` is a map from paths
  (relative to `out_dir`) to file contents, `FS := Str → Option Str`.
  Directory creation (`mkdir(parents=True, exist_ok=True)`) is
  idempotent and never deletes or changes files, so it is not modelled.
-/

/-- Python strings, modelled as character lists. -/
abbrev Str : Type := List Char

/-- Shorthand turning a Lean string literal into the `Str` model. -/
def lit (s : String) : Str := s.data

/-- A parsed YAML document (`yaml.safe_load` output). -/
inductive Yaml : Type where
  | null : Yaml
  | bool (b : Bool) : Yaml
  | int (n : Int) : Yaml
  | str (s : Str) : Yaml
  | seq (l : List Yaml) : Yaml
  | map (l : List (Str × Yaml)) : Yaml

/-- Python truthiness (`bool(x)` / `x or y` / `if x`): `None`, `False`,
`0`, `""`, `[]` and the empty dict are falsy, everything else truthy. -/
def pyTruthy : Yaml → Bool
  | .null => false
  | .bool b => b
  | .int n => n != 0
  | .str s => !s.isEmpty
  | .seq l => !l.isEmpty
  | .map l => !l.isEmpty

/-- Python `a or b`: `a` if truthy, else `b`. -/
def pyOr (a b : Yaml) : Yaml := if pyTruthy a then a else b

/-- Dictionary lookup (`d[k]` presence test / `d.get(k)`), first match. -/
def pyLookup (l : List (Str × Yaml)) (k : Str) : Option Yaml :=
  match l with
  | [] => none
  | (k', v) :: rest => if k' = k then some v else pyLookup rest k

/-- Remove a key from a mapping (used to state "key absent" variants). -/
def eraseKey (l : List (Str × Yaml)) (k : Str) : List (Str × Yaml) :=
  l.filter (fun kv => kv.1 ≠ k)

/-- Replace the value stored at a key (used to state document surgery). -/
def replaceKey (l : List (Str × Yaml)) (k : Str) (v : Yaml) :
    List (Str × Yaml) :=
  l.map (fun kv => if kv.1 = k then (kv.1, v) else kv)

/-- Errors raised by `load_spec` (Python exceptions). -/
inductive LoadError : Type where
  /-- `KeyError` from `i["path"]` / `i["title"]`: the missing-field
  error the spec calls `MissingFieldError`. -/
  | missingField (key : Str) : LoadError
  /-- `TypeError` / `AttributeError` / `ValueError`: a structural key is
  bound to a value of the wrong shape (e.g. `site` a scalar, `pages` not
  a sequence, `collapse_level` not coercible by `int`). -/
  | typeError : LoadError
deriving DecidableEq

/-- `d.get(k, default)` where `d` must behave as a mapping; a
non-mapping raises `AttributeError` (modelled as `typeError`). -/
def dictGet (y : Yaml) (k : Str) (dflt : Yaml) : Except LoadError Yaml :=
  match y with
  | .map l => .ok ((pyLookup l k).getD dflt)
  | _ => .error .typeError

/-- `d.get(k)` (default `None`) on a value that must be a mapping. -/
def dictGetOpt (y : Yaml) (k : Str) : Except LoadError Yaml :=
  dictGet y k .null

/-- Python `str(n)` for an integer (also what Jinja prints for one):
signed decimal, same as Lean's `toString`. -/
def intStr (n : Int) : Str := (toString n).data

/-- Parse an optional-sign decimal string, as accepted by `int(s)`.
Python also strips whitespace and allows underscores; those extras are
not exercised anywhere in this development. -/
def parseIntStr (s : Str) : Option Int :=
  let digits? (ds : List Char) : Option Nat :=
    if ds.isEmpty then none
    else ds.foldl (fun acc? c =>
      acc?.bind (fun acc =>
        if '0' ≤ c ∧ c ≤ '9' then some (acc * 10 + (c.toNat - 48)) else none))
      (some 0)
  match s with
  | '-' :: rest => (digits? rest).map (fun n => -(n : Int))
  | '+' :: rest => (digits? rest).map (fun n => (n : Int))
  | ds => (digits? ds).map (fun n => (n : Int))

/-- Python `int(x)`: ints pass through, booleans become 0/1, strings are
parsed (else `ValueError`), anything else raises `TypeError`. -/
def pyInt (y : Yaml) : Except LoadError Int :=
  match y with
  | .int n => .ok n
  | .bool b => .ok (if b then 1 else 0)
  | .str s =>
    match parseIntStr s with
    | some n => .ok n
    | none => .error .typeError
  | _ => .error .typeError

/-- A string-annotated dataclass field.  The documents this development
reasons about always bind such fields to strings; other scalars are
outside the typed model and rejected. -/
def asStr (y : Yaml) : Except LoadError Str :=
  match y with
  | .str s => .ok s
  | _ => .error .typeError

/-- `PageItem` from `spec.py`: one page reference. -/
structure PageItem : Type where
  path : Str
  title : Str
deriving DecidableEq

/-- `PageSection` from `spec.py` (`section` is a Lean keyword, hence the
field name `sectionName`). -/
structure PageSection : Type where
  sectionName : Str
  items : List PageItem
deriving DecidableEq

/-- `SiteSpec` from `spec.py`. -/
structure SiteSpec : Type where
  title : Str := lit "Manual"
  theme : Str := lit "cosmo"
  app_link : Option Str := none
  sidebar_style : Str := lit "docked"
  sidebar_search : Bool := true
  collapse_level : Int := 1
deriving DecidableEq

/-- `ManualSpec` from `spec.py`: aggregate root. -/
structure ManualSpec : Type where
  site : SiteSpec
  pages : List PageSection
deriving DecidableEq

/-- `app_link=site_raw.get("app_link")`: absent and explicit `null` both
give Python `None`, i.e. `none`; a string gives `some`. -/
def asOptStr (y : Yaml) : Except LoadError (Option Str) :=
  match y with
  | .null => .ok none
  | .str s => .ok (some s)
  | _ => .error .typeError

/-- The `SiteSpec(...)` construction inside `load_spec`, taking the
already-extracted `site_raw` value.  Field order follows the source:
title, theme, app_link, then the three sidebar reads
(`(site_raw.get("sidebar", {}) or {}).get(...)`). -/
def loadSite (site_raw : Yaml) : Except LoadError SiteSpec := do
  let title ← asStr (← dictGet site_raw (lit "title") (.str (lit "Manual")))
  let theme ← asStr (← dictGet site_raw (lit "theme") (.str (lit "cosmo")))
  let app_link ← asOptStr (← dictGetOpt site_raw (lit "app_link"))
  let sb := pyOr (← dictGet site_raw (lit "sidebar") (.map [])) (.map [])
  let style ← asStr (← dictGet sb (lit "style") (.str (lit "docked")))
  let search := pyTruthy (← dictGet sb (lit "search") (.bool true))
  let collapse ← pyInt (← dictGet sb (lit "collapse_level") (.int 1))
  pure { title := title, theme := theme, app_link := app_link,
         sidebar_style := style, sidebar_search := search,
         collapse_level := collapse }

/-- The subscript `i[k]` on an item mapping: a present value must be a
string (the declared field type), a missing key raises `KeyError k`
(the missing-field error). -/
def getField (l : List (Str × Yaml)) (k : Str) : Except LoadError Str :=
  match pyLookup l k with
  | some v => asStr v
  | none => .error (.missingField k)

/-- `PageItem(path=i["path"], title=i["title"])`: subscripting requires
a mapping, and a missing key raises `KeyError` (the missing-field
error).  `path` is evaluated first, as in the source. -/
def loadItem (i : Yaml) : Except LoadError PageItem := do
  match i with
  | .map l =>
    let path ← getField l (lit "path")
    let title ← getField l (lit "title")
    pure { path := path, title := title }
  | _ => .error .typeError

/-- The item comprehension `[PageItem(...) for i in items_y]`: iterating
a non-sequence raises `TypeError`. -/
def loadItems (itemsY : Yaml) : Except LoadError (List PageItem) :=
  match itemsY with
  | .seq is => is.mapM loadItem
  | _ => .error .typeError

/-- One iteration of the `for sec in ...` loop: the item comprehension
over `(sec.get("items") or [])` followed by
`PageSection(section=sec.get("section", "Section"), items=items)`. -/
def loadSection (sec : Yaml) : Except LoadError PageSection := do
  match sec with
  | .map l =>
    let items ← loadItems (pyOr ((pyLookup l (lit "items")).getD .null)
      (.seq []))
    let name ← asStr ((pyLookup l (lit "section")).getD (.str (lit "Section")))
    pure { sectionName := name, items := items }
  | _ => .error .typeError

/-- The `pages` loop of `load_spec`, over `raw.get("pages", []) or []`. -/
def loadPages (raw : Yaml) : Except LoadError (List PageSection) := do
  let pagesY := pyOr (← dictGet raw (lit "pages") (.seq [])) (.seq [])
  match pagesY with
  | .seq secs => secs.mapM loadSection
  | _ => .error .typeError

/-- `load_spec` from `spec.py`, starting from the parsed document
(`yaml.safe_load(...)` output; an empty or absent file parses to `None`,
i.e. `Yaml.null`).  `raw = parsed or {}`, then the `site` mapping, then
the `pages` sequence. -/
def loadSpec (doc : Yaml) : Except LoadError ManualSpec := do
  let raw := pyOr doc (.map [])
  let site_raw := pyOr (← dictGet raw (lit "site") (.map [])) (.map [])
  let site ← loadSite site_raw
  let pages ← loadPages raw
  pure { site := site, pages := pages }

/-- The default `SiteSpec` (all fields defaulted). -/
def defaultSite : SiteSpec :=
  { title := lit "Manual", theme := lit "cosmo", app_link := none,
    sidebar_style := lit "docked", sidebar_search := true,
    collapse_level := 1 }

example : loadSpec .null = .ok { site := defaultSite, pages := [] } := rfl
example : loadSpec (.map []) = .ok { site := defaultSite, pages := [] } := rfl
example :
    loadSpec (.map [(lit "pages",
      .seq [.map [(lit "items", .seq [.map [(lit "title", .str (lit "X"))]])]])])
      = .error (.missingField (lit "path")) := rfl
example :
    loadSpec (.map [(lit "site", .map [(lit "sidebar",
      .map [(lit "search", .str (lit "false"))])])]) =
      .ok { site := { defaultSite with sidebar_search := true }, pages := [] } :=
  rfl

/-! ## Template renderer (`quarto_yml_website.j2`, `index_qmd.j2`,
`page_qmd.j2`; Jinja environment with default block handling and
`keep_trailing_newline=True`).

The site-config template is line structured; `renderSiteConfigLines`
lists the lines of its expansion (block tags contribute the empty lines
their trailing newlines produce, since `trim_blocks` is off), and
`renderSiteConfig` joins them with newlines, which is exactly the
expanded text. -/

/-- `  title: "{{ spec.site.title }}"` -/
def titleLine (t : Str) : Str := lit "  title: \"" ++ (t ++ lit "\"")

/-- `    style: {{ spec.site.sidebar_style }}` -/
def styleLine (s : Str) : Str := lit "    style: " ++ s

/-- `    search: {{ "true" if spec.site.sidebar_search else "false" }}` -/
def searchLine (b : Bool) : Str :=
  lit "    search: " ++ (if b then lit "true" else lit "false")

/-- `    collapse-level: {{ spec.site.collapse_level }}` -/
def collapseLine (n : Int) : Str := lit "    collapse-level: " ++ intStr n

/-- `      - section: "{{ sec.section }}"` -/
def secLine (s : Str) : Str := lit "      - section: \"" ++ (s ++ lit "\"")

/-- `          - href: {{ item.path }}` -/
def hrefLine (p : Str) : Str := lit "          - href: " ++ p

/-- `            text: "{{ item.title }}"` -/
def textLine (t : Str) : Str := lit "            text: \"" ++ (t ++ lit "\"")

/-- `      - href: "{{ spec.site.app_link }}"` -/
def appHrefLine (l : Str) : Str := lit "      - href: \"" ++ (l ++ lit "\"")

/-- `    theme: {{ spec.site.theme }}` -/
def themeLine (t : Str) : Str := lit "    theme: " ++ t

/-- Jinja truthiness of `spec.site.app_link` (an `Optional[str]`):
`None` and the empty string are falsy. -/
def appTruthy : Option Str → Bool
  | none => false
  | some s => !s.isEmpty

/-- Lines contributed by one iteration of the item loop (the leading
empty line is the newline after the `for`/previous `endfor` tag). -/
def itemLines (it : PageItem) : List Str :=
  [lit "", hrefLine it.path, textLine it.title]

/-- Lines contributed by one iteration of the section loop. -/
def secLines (sec : PageSection) : List Str :=
  [secLine sec.sectionName, lit "        contents:"]
    ++ sec.items.flatMap itemLines ++ [lit "", lit ""]

/-- Lines of the fixed template text up to and including the newline
ending the `text: Home` line (final empty line = the newline before the
section `for` tag). -/
def headLines (site : SiteSpec) : List Str :=
  [lit "project:", lit "  type: website", lit "", lit "website:",
   titleLine site.title,
   lit "  reader-mode: true", lit "  page-navigation: true",
   lit "  sidebar:",
   styleLine site.sidebar_style,
   searchLine site.sidebar_search,
   collapseLine site.collapse_level,
   lit "    contents:", lit "      - href: index.qmd",
   lit "        text: Home", lit ""]

/-- Lines of the `{% if spec.site.app_link %}` block. -/
def appLines (app : Option Str) : List Str :=
  if appTruthy app then
    [lit "  navbar:", lit "    right:",
     appHrefLine (app.getD (lit "")),
     lit "        text: \"App\"", lit ""]
  else []

/-- Lines of the fixed template tail after the `endif` tag. -/
def tailLines (site : SiteSpec) : List Str :=
  [lit "", lit "format:", lit "  html:", lit "    toc: true",
   themeLine site.theme, lit ""]

/-- The lines of the expanded site-config template, in order. -/
def renderSiteConfigLines (spec : ManualSpec) : List Str :=
  headLines spec.site
  ++ spec.pages.flatMap secLines
  ++ [lit ""]
  ++ appLines spec.site.app_link
  ++ tailLines spec.site

/-- `renderSiteConfig`: the expanded site-config text. -/
def renderSiteConfig (spec : ManualSpec) : Str :=
  List.intercalate (lit "\n") (renderSiteConfigLines spec)

/-- `renderHomePage`: expansion of `index_qmd.j2`. -/
def renderHomePage (spec : ManualSpec) : Str :=
  lit "---\ntitle: \"" ++ spec.site.title
    ++ lit "\"\n---\n\n## Welcome\n\n- 왼쪽 사이드바에서 문서를 탐색하세요.\n"

/-- `renderPage`: expansion of `page_qmd.j2` against
`title`, `section`, `path`. -/
def renderPage (title sectionName path : Str) : Str :=
  lit "---\ntitle: \"" ++ title ++ lit "\"\n---\n\n## " ++ title
    ++ lit "\n\n- Section: " ++ sectionName
    ++ lit "\n- Source path: `" ++ path
    ++ lit "`\n\n### TODO\n- 여기에 매뉴얼 내용을 작성하세요.\n"

/-- The sample document `manual_spec.yml` shipped with the repository,
used below to validate the embedding on a concrete input. -/
def sampleSpec : ManualSpec :=
  { site := { title := lit "PCR Primer Manual", theme := lit "cosmo",
              app_link := some (lit "/"), sidebar_style := lit "docked",
              sidebar_search := true, collapse_level := 1 },
    pages := [{ sectionName := lit "Getting started",
                items := [{ path := lit "getting-started/install.qmd",
                            title := lit "Install" },
                          { path := lit "getting-started/quickstart.qmd",
                            title := lit "Quickstart" }] }] }

set_option maxRecDepth 8192 in
example :
    renderSiteConfig sampleSpec =
      lit ("project:\n  type: website\n\nwebsite:\n  title: \"PCR Primer Manual\"\n"
        ++ "  reader-mode: true\n  page-navigation: true\n  sidebar:\n"
        ++ "    style: docked\n    search: true\n    collapse-level: 1\n"
        ++ "    contents:\n      - href: index.qmd\n        text: Home\n"
        ++ "\n      - section: \"Getting started\"\n        contents:\n"
        ++ "\n          - href: getting-started/install.qmd\n            text: \"Install\"\n"
        ++ "\n          - href: getting-started/quickstart.qmd\n            text: \"Quickstart\"\n"
        ++ "\n\n\n  navbar:\n    right:\n      - href: \"/\"\n        text: \"App\"\n"
        ++ "\n\nformat:\n  html:\n    toc: true\n    theme: cosmo\n") := by
  decide

/-! ## Project materializer (`generate_manual` in `generator.py`).

The file system is a map from paths relative to `out_dir` to contents.
`generateW` additionally records the write actions actually performed,
in order, as ghost instrumentation (the first component is exactly the
file system `generate_manual` leaves behind). -/

/-- File-system state: path (relative to `out_dir`) to content. -/
def FS : Type := Str → Option Str

/-- `p.write_text(c)`. -/
def fsWrite (m : FS) (p c : Str) : FS :=
  fun q => if q = p then some c else m q

/-- The fixed site-config filename `_quarto.yml`. -/
def qymlName : Str := lit "_quarto.yml"

/-- The fixed home-page filename `index.qmd`. -/
def idxName : Str := lit "index.qmd"

/-- The per-item stub writes, in loop order: path and rendered content
(`page_t.render(title=item.title, section=sec.section, path=item.path)`). -/
def pageWrites (spec : ManualSpec) : List (Str × Str) :=
  spec.pages.flatMap (fun sec =>
    sec.items.map (fun it =>
      (it.path, renderPage it.title sec.sectionName it.path)))

/-- One iteration of the item loop:
`if (not overwrite) and p.exists(): continue` else write. -/
def writeStep (overwrite : Bool) (st : FS × List (Str × Str))
    (pc : Str × Str) : FS × List (Str × Str) :=
  if !overwrite && (st.1 pc.1).isSome then st
  else (fsWrite st.1 pc.1 pc.2, st.2 ++ [pc])

/-- `generate_manual(spec=spec, out_dir=out_dir, overwrite=overwrite)`,
instrumented with the list of performed writes: the unconditional
`_quarto.yml` write, the conditional `index.qmd` write
(`if overwrite or not idx_path.exists()`), then the item loop. -/
def generateW (spec : ManualSpec) (overwrite : Bool) (fs : FS) :
    FS × List (Str × Str) :=
  let cfg := renderSiteConfig spec
  let st1 : FS × List (Str × Str) := (fsWrite fs qymlName cfg, [(qymlName, cfg)])
  let st2 : FS × List (Str × Str) :=
    if overwrite || !(st1.1 idxName).isSome then
      (fsWrite st1.1 idxName (renderHomePage spec),
       st1.2 ++ [(idxName, renderHomePage spec)])
    else st1
  (pageWrites spec).foldl (writeStep overwrite) st2

/-- The file system `generate_manual` leaves behind. -/
def generate (spec : ManualSpec) (overwrite : Bool) (fs : FS) : FS :=
  (generateW spec overwrite fs).1

/-! ## Command surface (`cli.py`): the `render` operation. -/

/-- Outcome of the `subprocess.run(["quarto", "render", ...])` call. -/
structure ProcResult : Type where
  returncode : Int
  stdout : Str
  stderr : Str

/-- `_run_quarto_render`: raises `SystemExit` with the captured streams
on non-zero exit, returns normally otherwise. -/
def runQuartoRender (p : ProcResult) : Except Str Unit :=
  if p.returncode ≠ 0 then
    .error (lit "[qmanual] quarto render failed\nSTDOUT:\n" ++ p.stdout
      ++ lit "\nSTDERR:\n" ++ p.stderr)
  else .ok ()

/-- Process exit status of the `render` command: `SystemExit` carrying a
string message terminates the interpreter with status 1; the success
path returns from `main` with status 0. -/
def exitStatus : Except Str Unit → Nat
  | .ok _ => 0
  | .error _ => 1

/-! ## Extraction of the navigation structure from the rendered
site-config lines (verification tooling, not part of the program). -/

/-- The 18-character mark opening a section entry line. -/
def secPre : Str := lit "      - section: \""

/-- The 18-character mark opening an item href line. -/
def itemHrefPre : Str := lit "          - href: "

/-- The 19-character mark opening an item text line. -/
def itemTextPre : Str := lit "            text: \""

/-- The home navigation entry line. -/
def homeHrefL : Str := lit "      - href: index.qmd"

/-- The app-link label line. -/
def appTextL : Str := lit "        text: \"App\""

example : secPre.length = 18 ∧ itemHrefPre.length = 18 ∧
    itemTextPre.length = 19 := by decide

/-- Does a line open a section entry? -/
def isSecL (l : Str) : Bool := l.take 18 == secPre

/-- Does a line open an item entry (href part)? -/
def isHrefL (l : Str) : Bool := l.take 18 == itemHrefPre

/-- Does a line carry an item entry's text? -/
def isTextL (l : Str) : Bool := l.take 19 == itemTextPre

/-- Parser state: sections seen so far (reversed, items reversed) and a
pending href waiting for its text line. -/
def NavSt : Type := List (Str × List (Str × Str)) × Option Str

/-- One line of navigation parsing. -/
def navStep (st : NavSt) (l : Str) : NavSt :=
  if isSecL l then ((l.drop 18 |>.dropLast, []) :: st.1, none)
  else if isHrefL l then (st.1, some (l.drop 18))
  else if isTextL l then
    match st.2, st.1 with
    | some h, (s, its) :: acc =>
      ((s, (h, l.drop 19 |>.dropLast) :: its) :: acc, none)
    | _, _ => (st.1, none)
  else (st.1, none)

/-- Recover, from rendered lines, the nested navigation: one entry per
section (name, then one `(href, text)` pair per item), in order. -/
def parseNavSections (ls : List Str) : List (Str × List (Str × Str)) :=
  (((ls.foldl navStep ([], none)).1).map (fun p => (p.1, p.2.reverse))).reverse

example :
    parseNavSections (renderSiteConfigLines sampleSpec) =
      [(lit "Getting started",
        [(lit "getting-started/install.qmd", lit "Install"),
         (lit "getting-started/quickstart.qmd", lit "Quickstart")])] := by
  decide

/-! ## Line-shape lemmas: which rendered lines match which marks. -/

theorem take_pre_false {litp pat x : Str} {n k : Nat} (hk : k ≤ litp.length)
    (hkn : k ≤ n) (hne : litp.take k ≠ pat.take k) :
    (((litp ++ x).take n) == pat) = false := by
  rw [beq_eq_false_iff_ne]
  intro h
  have h1 := congrArg (List.take k) h
  rw [List.take_take, inf_eq_left.mpr hkn,
    List.take_append_of_le_length hk] at h1
  exact hne h1

theorem ne_of_lit_take (litp pat x : Str) (k : Nat) (hk : k ≤ litp.length)
    (hne : litp.take k ≠ pat.take k) : litp ++ x ≠ pat := by
  intro h
  have h1 := congrArg (List.take k) h
  rw [List.take_append_of_le_length hk] at h1
  exact hne h1

theorem isSecL_false_of (litp x : Str) (k : Nat) (hk : k ≤ litp.length)
    (hkn : k ≤ 18) (hne : litp.take k ≠ secPre.take k) :
    isSecL (litp ++ x) = false := take_pre_false hk hkn hne

theorem isHrefL_false_of (litp x : Str) (k : Nat) (hk : k ≤ litp.length)
    (hkn : k ≤ 18) (hne : litp.take k ≠ itemHrefPre.take k) :
    isHrefL (litp ++ x) = false := take_pre_false hk hkn hne

theorem isTextL_false_of (litp x : Str) (k : Nat) (hk : k ≤ litp.length)
    (hkn : k ≤ 19) (hne : litp.take k ≠ itemTextPre.take k) :
    isTextL (litp ++ x) = false := take_pre_false hk hkn hne

/-- A line none of the three entry marks matches. -/
abbrev plainL (l : Str) : Prop :=
  isSecL l = false ∧ isHrefL l = false ∧ isTextL l = false

theorem titleLine_plain (t : Str) : plainL (titleLine t) :=
  ⟨isSecL_false_of (lit "  title: \"") _ 3 (by decide) (by decide) (by decide),
   isHrefL_false_of (lit "  title: \"") _ 3 (by decide) (by decide) (by decide),
   isTextL_false_of (lit "  title: \"") _ 3 (by decide) (by decide) (by decide)⟩

theorem styleLine_plain (s : Str) : plainL (styleLine s) :=
  ⟨isSecL_false_of (lit "    style: ") _ 5 (by decide) (by decide) (by decide),
   isHrefL_false_of (lit "    style: ") _ 5 (by decide) (by decide) (by decide),
   isTextL_false_of (lit "    style: ") _ 5 (by decide) (by decide) (by decide)⟩

theorem searchLine_plain (b : Bool) : plainL (searchLine b) :=
  ⟨isSecL_false_of (lit "    search: ") _ 5 (by decide) (by decide) (by decide),
   isHrefL_false_of (lit "    search: ") _ 5 (by decide) (by decide) (by decide),
   isTextL_false_of (lit "    search: ") _ 5 (by decide) (by decide) (by decide)⟩

theorem collapseLine_plain (n : Int) : plainL (collapseLine n) :=
  ⟨isSecL_false_of (lit "    collapse-level: ") _ 5 (by decide) (by decide)
     (by decide),
   isHrefL_false_of (lit "    collapse-level: ") _ 5 (by decide) (by decide)
     (by decide),
   isTextL_false_of (lit "    collapse-level: ") _ 5 (by decide) (by decide)
     (by decide)⟩

theorem themeLine_plain (t : Str) : plainL (themeLine t) :=
  ⟨isSecL_false_of (lit "    theme: ") _ 5 (by decide) (by decide) (by decide),
   isHrefL_false_of (lit "    theme: ") _ 5 (by decide) (by decide) (by decide),
   isTextL_false_of (lit "    theme: ") _ 5 (by decide) (by decide) (by decide)⟩

theorem appHrefLine_plain (l : Str) : plainL (appHrefLine l) :=
  ⟨isSecL_false_of (lit "      - href: \"") _ 9 (by decide) (by decide)
     (by decide),
   isHrefL_false_of (lit "      - href: \"") _ 7 (by decide) (by decide)
     (by decide),
   isTextL_false_of (lit "      - href: \"") _ 7 (by decide) (by decide)
     (by decide)⟩

theorem isSecL_secLine (s : Str) : isSecL (secLine s) = true := by
  show ((secPre ++ (s ++ lit "\"")).take 18 == secPre) = true
  rw [List.take_left' (by decide)]
  exact beq_self_eq_true _

theorem secLine_drop (s : Str) : ((secLine s).drop 18).dropLast = s := by
  show ((secPre ++ (s ++ lit "\"")).drop 18).dropLast = s
  rw [List.drop_left' (by decide)]
  exact List.dropLast_concat

theorem isSecL_hrefLine (q : Str) : isSecL (hrefLine q) = false :=
  isSecL_false_of itemHrefPre q 7 (by decide) (by decide) (by decide)

theorem isHrefL_hrefLine (q : Str) : isHrefL (hrefLine q) = true := by
  show ((itemHrefPre ++ q).take 18 == itemHrefPre) = true
  rw [List.take_left' (by decide)]
  exact beq_self_eq_true _

theorem hrefLine_drop (q : Str) : (hrefLine q).drop 18 = q := by
  show (itemHrefPre ++ q).drop 18 = q
  exact List.drop_left' (by decide)

theorem isSecL_textLine (t : Str) : isSecL (textLine t) = false :=
  isSecL_false_of itemTextPre _ 7 (by decide) (by decide) (by decide)

theorem isHrefL_textLine (t : Str) : isHrefL (textLine t) = false :=
  isHrefL_false_of itemTextPre _ 11 (by decide) (by decide) (by decide)

theorem isTextL_textLine (t : Str) : isTextL (textLine t) = true := by
  show ((itemTextPre ++ (t ++ lit "\"")).take 19 == itemTextPre) = true
  rw [List.take_left' (by decide)]
  exact beq_self_eq_true _

theorem textLine_drop (t : Str) : ((textLine t).drop 19).dropLast = t := by
  show ((itemTextPre ++ (t ++ lit "\"")).drop 19).dropLast = t
  rw [List.drop_left' (by decide)]
  exact List.dropLast_concat

/-! ## Behaviour of the navigation parser on each line shape. -/

theorem navStep_plain (acc : List (Str × List (Str × Str)))
    (p : Option Str) (l : Str) (h : plainL l) :
    navStep (acc, p) l = (acc, none) := by
  obtain ⟨h1, h2, h3⟩ := h
  simp only [navStep, h1, h2, h3, Bool.false_eq_true, if_false]

theorem navStep_sec (acc : List (Str × List (Str × Str))) (p : Option Str)
    (s : Str) : navStep (acc, p) (secLine s) = ((s, []) :: acc, none) := by
  simp only [navStep, isSecL_secLine, if_true, secLine_drop]

theorem navStep_href (acc : List (Str × List (Str × Str))) (p : Option Str)
    (q : Str) : navStep (acc, p) (hrefLine q) = (acc, some q) := by
  simp only [navStep, isSecL_hrefLine, isHrefL_hrefLine,
    Bool.false_eq_true, if_false, if_true, hrefLine_drop]

theorem navStep_text (s : Str) (its : List (Str × Str))
    (acc : List (Str × List (Str × Str))) (h t : Str) :
    navStep ((s, its) :: acc, some h) (textLine t)
      = ((s, (h, t) :: its) :: acc, none) := by
  simp only [navStep, isSecL_textLine, isHrefL_textLine, isTextL_textLine,
    Bool.false_eq_true, if_false, if_true, textLine_drop]

theorem foldl_navStep_plain (ls : List Str) (h : ∀ l ∈ ls, plainL l)
    (acc : List (Str × List (Str × Str))) :
    ls.foldl navStep (acc, none) = (acc, none) := by
  induction ls with
  | nil => rfl
  | cons x xs ih =>
    rw [List.foldl_cons, navStep_plain acc none x (h x (List.mem_cons_self x xs))]
    exact ih (fun l hl => h l (List.mem_cons_of_mem _ hl))

theorem head_all_plain (site : SiteSpec) :
    ∀ l ∈ headLines site, plainL l := by
  intro l hl
  simp only [headLines, List.mem_cons, List.not_mem_nil, or_false] at hl
  rcases hl with rfl | rfl | rfl | rfl | rfl | rfl | rfl | rfl | rfl | rfl |
    rfl | rfl | rfl | rfl | rfl
  all_goals
    first
      | exact titleLine_plain _
      | exact styleLine_plain _
      | exact searchLine_plain _
      | exact collapseLine_plain _
      | decide

theorem app_all_plain (app : Option Str) :
    ∀ l ∈ appLines app, plainL l := by
  intro l hl
  unfold appLines at hl
  rcases happ : appTruthy app with _ | _
  · rw [happ] at hl
    simp at hl
  · rw [happ] at hl
    simp only [if_true, List.mem_cons, List.not_mem_nil, or_false] at hl
    rcases hl with rfl | rfl | rfl | rfl | rfl
    all_goals first | exact appHrefLine_plain _ | decide

theorem tail_all_plain (site : SiteSpec) :
    ∀ l ∈ tailLines site, plainL l := by
  intro l hl
  simp only [tailLines, List.mem_cons, List.not_mem_nil, or_false] at hl
  rcases hl with rfl | rfl | rfl | rfl | rfl | rfl
  all_goals first | exact themeLine_plain _ | decide

/-! ## The parser recovers the declared navigation structure. -/

theorem items_fold (items : List PageItem) (s : Str) (its : List (Str × Str))
    (acc : List (Str × List (Str × Str))) :
    (items.flatMap itemLines).foldl navStep ((s, its) :: acc, none)
      = ((s, (items.map (fun it => (it.path, it.title))).reverse ++ its)
          :: acc, none) := by
  induction items generalizing its with
  | nil => simp
  | cons it rest ih =>
    rw [List.flatMap_cons, List.foldl_append]
    have h1 : (itemLines it).foldl navStep ((s, its) :: acc, none)
        = ((s, (it.path, it.title) :: its) :: acc, none) := by
      show List.foldl navStep _ [lit "", hrefLine it.path, textLine it.title]
        = _
      rw [List.foldl_cons, navStep_plain _ none (lit "") (by decide),
        List.foldl_cons, navStep_href _ none it.path,
        List.foldl_cons, navStep_text s its acc it.path it.title]
      rfl
    rw [h1, ih ((it.path, it.title) :: its)]
    simp [List.append_assoc]

theorem sec_fold (sec : PageSection) (acc : List (Str × List (Str × Str))) :
    (secLines sec).foldl navStep (acc, none)
      = ((sec.sectionName,
          (sec.items.map (fun it => (it.path, it.title))).reverse)
          :: acc, none) := by
  show List.foldl navStep _
    ([secLine sec.sectionName, lit "        contents:"]
      ++ sec.items.flatMap itemLines ++ [lit "", lit ""]) = _
  rw [List.foldl_append, List.foldl_append]
  rw [show List.foldl navStep (acc, none)
      [secLine sec.sectionName, lit "        contents:"]
      = ((sec.sectionName, []) :: acc, none) from ?side]
  · rw [items_fold sec.items sec.sectionName [] acc]
    rw [List.append_nil]
    exact foldl_navStep_plain [lit "", lit ""] (by decide) _
  case side =>
    rw [List.foldl_cons, navStep_sec acc none sec.sectionName,
      List.foldl_cons,
      navStep_plain _ none (lit "        contents:") (by decide)]
    rfl

theorem pages_fold (pages : List PageSection)
    (acc : List (Str × List (Str × Str))) :
    (pages.flatMap secLines).foldl navStep (acc, none)
      = ((pages.map (fun sec => (sec.sectionName,
            (sec.items.map (fun it => (it.path, it.title))).reverse))).reverse
          ++ acc, none) := by
  induction pages generalizing acc with
  | nil => simp
  | cons sec rest ih =>
    rw [List.flatMap_cons, List.foldl_append, sec_fold sec acc, ih]
    simp [List.append_assoc]

theorem parse_render (spec : ManualSpec) :
    parseNavSections (renderSiteConfigLines spec)
      = spec.pages.map (fun sec =>
          (sec.sectionName, sec.items.map (fun it => (it.path, it.title)))) := by
  unfold parseNavSections renderSiteConfigLines
  rw [List.foldl_append, List.foldl_append, List.foldl_append,
    List.foldl_append]
  rw [foldl_navStep_plain _ (head_all_plain spec.site) []]
  rw [pages_fold spec.pages []]
  rw [List.append_nil]
  rw [foldl_navStep_plain _ (by decide) _]
  rw [foldl_navStep_plain _ (app_all_plain spec.site.app_link) _]
  rw [foldl_navStep_plain _ (tail_all_plain spec.site) _]
  simp [List.map_reverse, List.map_map, Function.comp]

/-! ## No rendered line other than the template's own `Home` line equals
it, and no line of an app-less rendering is the `App` label line. -/

theorem secLine_ne_home (s : Str) : secLine s ≠ homeHrefL :=
  ne_of_lit_take secPre homeHrefL (s ++ lit "\"") 9 (by decide) (by decide)

theorem hrefLine_ne_home (q : Str) : hrefLine q ≠ homeHrefL :=
  ne_of_lit_take itemHrefPre homeHrefL q 7 (by decide) (by decide)

theorem textLine_ne_home (t : Str) : textLine t ≠ homeHrefL :=
  ne_of_lit_take itemTextPre homeHrefL (t ++ lit "\"") 7 (by decide) (by decide)

theorem titleLine_ne_home (t : Str) : titleLine t ≠ homeHrefL :=
  ne_of_lit_take (lit "  title: \"") homeHrefL (t ++ lit "\"") 3 (by decide)
    (by decide)

theorem styleLine_ne_home (s : Str) : styleLine s ≠ homeHrefL :=
  ne_of_lit_take (lit "    style: ") homeHrefL s 5 (by decide) (by decide)

theorem searchLine_ne_home (b : Bool) : searchLine b ≠ homeHrefL :=
  ne_of_lit_take (lit "    search: ") homeHrefL
    (if b then lit "true" else lit "false") 5 (by decide) (by decide)

theorem collapseLine_ne_home (n : Int) : collapseLine n ≠ homeHrefL :=
  ne_of_lit_take (lit "    collapse-level: ") homeHrefL (intStr n) 5
    (by decide) (by decide)

theorem themeLine_ne_home (t : Str) : themeLine t ≠ homeHrefL :=
  ne_of_lit_take (lit "    theme: ") homeHrefL t 5 (by decide) (by decide)

theorem appHrefLine_ne_home (l : Str) : appHrefLine l ≠ homeHrefL :=
  ne_of_lit_take (lit "      - href: \"") homeHrefL (l ++ lit "\"") 15
    (by decide) (by decide)

theorem home_not_mem_itemLines (it : PageItem) : homeHrefL ∉ itemLines it := by
  intro h
  simp only [itemLines, List.mem_cons, List.not_mem_nil, or_false] at h
  rcases h with h | h | h
  · exact absurd h (by decide)
  · exact hrefLine_ne_home it.path h.symm
  · exact textLine_ne_home it.title h.symm

theorem home_not_mem_secLines (sec : PageSection) :
    homeHrefL ∉ secLines sec := by
  intro h
  simp only [secLines, List.mem_append, List.mem_cons, List.not_mem_nil,
    or_false, List.mem_flatMap] at h
  rcases h with ((h | h) | ⟨it, _, hit⟩) | (h | h)
  · exact secLine_ne_home sec.sectionName h.symm
  · exact absurd h (by decide)
  · exact home_not_mem_itemLines it hit
  · exact absurd h (by decide)
  · exact absurd h (by decide)

theorem home_not_mem_pages (pages : List PageSection) :
    homeHrefL ∉ pages.flatMap secLines := by
  intro h
  rcases List.mem_flatMap.mp h with ⟨sec, _, hsec⟩
  exact home_not_mem_secLines sec hsec

theorem home_not_mem_appLines (app : Option Str) :
    homeHrefL ∉ appLines app := by
  intro h
  unfold appLines at h
  rcases happ : appTruthy app with _ | _ <;> rw [happ] at h
  · simp at h
  · simp only [if_true, List.mem_cons, List.not_mem_nil, or_false] at h
    rcases h with h | h | h | h | h
    · exact absurd h (by decide)
    · exact absurd h (by decide)
    · exact appHrefLine_ne_home _ h.symm
    · exact absurd h (by decide)
    · exact absurd h (by decide)

theorem home_not_mem_tailLines (site : SiteSpec) :
    homeHrefL ∉ tailLines site := by
  intro h
  simp only [tailLines, List.mem_cons, List.not_mem_nil, or_false] at h
  rcases h with h | h | h | h | h | h
  · exact absurd h (by decide)
  · exact absurd h (by decide)
  · exact absurd h (by decide)
  · exact absurd h (by decide)
  · exact themeLine_ne_home _ h.symm
  · exact absurd h (by decide)

theorem home_count_head (site : SiteSpec) :
    (headLines site).count homeHrefL = 1 := by
  show List.count homeHrefL
    ([lit "project:", lit "  type: website", lit "", lit "website:",
      titleLine site.title,
      lit "  reader-mode: true", lit "  page-navigation: true",
      lit "  sidebar:",
      styleLine site.sidebar_style,
      searchLine site.sidebar_search,
      collapseLine site.collapse_level,
      lit "    contents:"]
     ++ homeHrefL :: [lit "        text: Home", lit ""]) = 1
  rw [List.count_append, List.count_cons_self,
    List.count_eq_zero_of_not_mem, Nat.zero_add]
  · rw [List.count_eq_zero_of_not_mem (by decide)]
  · intro h
    simp only [List.mem_cons, List.not_mem_nil, or_false] at h
    rcases h with h | h | h | h | h | h | h | h | h | h | h | h
    · exact absurd h (by decide)
    · exact absurd h (by decide)
    · exact absurd h (by decide)
    · exact absurd h (by decide)
    · exact titleLine_ne_home _ h.symm
    · exact absurd h (by decide)
    · exact absurd h (by decide)
    · exact absurd h (by decide)
    · exact styleLine_ne_home _ h.symm
    · exact searchLine_ne_home _ h.symm
    · exact collapseLine_ne_home _ h.symm
    · exact absurd h (by decide)

theorem home_count_render (spec : ManualSpec) :
    (renderSiteConfigLines spec).count homeHrefL = 1 := by
  unfold renderSiteConfigLines
  rw [List.count_append, List.count_append, List.count_append,
    List.count_append, home_count_head,
    List.count_eq_zero_of_not_mem (home_not_mem_pages spec.pages),
    List.count_eq_zero_of_not_mem (a := homeHrefL) (l := [lit ""]) (by decide),
    List.count_eq_zero_of_not_mem (home_not_mem_appLines spec.site.app_link),
    List.count_eq_zero_of_not_mem (home_not_mem_tailLines spec.site)]

/-! ## The Home entry precedes every section entry. -/

theorem mem_takeWhile_append (p : Str → Bool) (l₁ l₂ : List Str) (a : Str)
    (ha : a ∈ l₁) (hall : ∀ x ∈ l₁, p x = true) :
    a ∈ (l₁ ++ l₂).takeWhile p := by
  induction l₁ with
  | nil => cases ha
  | cons x xs ih =>
    rw [List.cons_append,
      List.takeWhile_cons_of_pos (hall x (List.mem_cons_self x xs))]
    rcases List.mem_cons.mp ha with rfl | hxs
    · exact List.mem_cons_self _ _
    · exact List.mem_cons_of_mem _
        (ih hxs (fun y hy => hall y (List.mem_cons_of_mem _ hy)))

theorem home_before_sections (spec : ManualSpec) :
    homeHrefL ∈ (renderSiteConfigLines spec).takeWhile
      (fun l => !(isSecL l)) := by
  unfold renderSiteConfigLines
  rw [List.append_assoc, List.append_assoc, List.append_assoc]
  apply mem_takeWhile_append
  · unfold headLines
    exact List.mem_cons_of_mem _ (List.mem_cons_of_mem _
      (List.mem_cons_of_mem _ (List.mem_cons_of_mem _
      (List.mem_cons_of_mem _ (List.mem_cons_of_mem _
      (List.mem_cons_of_mem _ (List.mem_cons_of_mem _
      (List.mem_cons_of_mem _ (List.mem_cons_of_mem _
      (List.mem_cons_of_mem _ (List.mem_cons_of_mem _
      (List.mem_cons_self _ _))))))))))))
  · intro x hx
    have := (head_all_plain spec.site x hx).1
    simp [this]

/-! ## Presence/absence of the app-link block lines. -/

theorem titleLine_ne_appText (t : Str) : titleLine t ≠ appTextL :=
  ne_of_lit_take (lit "  title: \"") appTextL (t ++ lit "\"") 3 (by decide)
    (by decide)

theorem styleLine_ne_appText (s : Str) : styleLine s ≠ appTextL :=
  ne_of_lit_take (lit "    style: ") appTextL s 5 (by decide) (by decide)

theorem searchLine_ne_appText (b : Bool) : searchLine b ≠ appTextL :=
  ne_of_lit_take (lit "    search: ") appTextL
    (if b then lit "true" else lit "false") 5 (by decide) (by decide)

theorem collapseLine_ne_appText (n : Int) : collapseLine n ≠ appTextL :=
  ne_of_lit_take (lit "    collapse-level: ") appTextL (intStr n) 5
    (by decide) (by decide)

theorem themeLine_ne_appText (t : Str) : themeLine t ≠ appTextL :=
  ne_of_lit_take (lit "    theme: ") appTextL t 5 (by decide) (by decide)

theorem secLine_ne_appText (s : Str) : secLine s ≠ appTextL :=
  ne_of_lit_take secPre appTextL (s ++ lit "\"") 7 (by decide) (by decide)

theorem hrefLine_ne_appText (q : Str) : hrefLine q ≠ appTextL :=
  ne_of_lit_take itemHrefPre appTextL q 9 (by decide) (by decide)

theorem textLine_ne_appText (t : Str) : textLine t ≠ appTextL :=
  ne_of_lit_take itemTextPre appTextL (t ++ lit "\"") 9 (by decide) (by decide)

theorem appText_not_mem_head (site : SiteSpec) :
    appTextL ∉ headLines site := by
  intro h
  simp only [headLines, List.mem_cons, List.not_mem_nil, or_false] at h
  rcases h with h | h | h | h | h | h | h | h | h | h | h | h | h | h | h
  · exact absurd h (by decide)
  · exact absurd h (by decide)
  · exact absurd h (by decide)
  · exact absurd h (by decide)
  · exact titleLine_ne_appText _ h.symm
  · exact absurd h (by decide)
  · exact absurd h (by decide)
  · exact absurd h (by decide)
  · exact styleLine_ne_appText _ h.symm
  · exact searchLine_ne_appText _ h.symm
  · exact collapseLine_ne_appText _ h.symm
  · exact absurd h (by decide)
  · exact absurd h (by decide)
  · exact absurd h (by decide)
  · exact absurd h (by decide)

theorem appText_not_mem_secLines (sec : PageSection) :
    appTextL ∉ secLines sec := by
  intro h
  simp only [secLines, List.mem_append, List.mem_cons, List.not_mem_nil,
    or_false, List.mem_flatMap] at h
  rcases h with ((h | h) | ⟨it, _, hit⟩) | (h | h)
  · exact secLine_ne_appText sec.sectionName h.symm
  · exact absurd h (by decide)
  · simp only [itemLines, List.mem_cons, List.not_mem_nil, or_false] at hit
    rcases hit with h | h | h
    · exact absurd h (by decide)
    · exact hrefLine_ne_appText it.path h.symm
    · exact textLine_ne_appText it.title h.symm
  · exact absurd h (by decide)
  · exact absurd h (by decide)

theorem appText_not_mem_pages (pages : List PageSection) :
    appTextL ∉ pages.flatMap secLines := by
  intro h
  rcases List.mem_flatMap.mp h with ⟨sec, _, hsec⟩
  exact appText_not_mem_secLines sec hsec

theorem appText_not_mem_tailLines (site : SiteSpec) :
    appTextL ∉ tailLines site := by
  intro h
  simp only [tailLines, List.mem_cons, List.not_mem_nil, or_false] at h
  rcases h with h | h | h | h | h | h
  · exact absurd h (by decide)
  · exact absurd h (by decide)
  · exact absurd h (by decide)
  · exact absurd h (by decide)
  · exact themeLine_ne_appText _ h.symm
  · exact absurd h (by decide)

/-! ## Claim theorems (C4, C5, C8). -/

/-- C4: for every `ManualSpec`, the rendered site configuration carries
exactly one navigation entry (`href` = item path, `text` = item title)
per declared `PageItem`, in item declaration order, nested under its
declared section, with sections in declaration order (parsing the
navigation entries back out of the rendered lines recovers exactly the
declared structure), and a single `Home` entry (`href: index.qmd`)
precedes every section entry. -/
theorem claim_C4_nav_entries (spec : ManualSpec) :
    parseNavSections (renderSiteConfigLines spec)
      = spec.pages.map (fun sec =>
          (sec.sectionName, sec.items.map (fun it => (it.path, it.title))))
    ∧ (renderSiteConfigLines spec).count homeHrefL = 1
    ∧ homeHrefL ∈ (renderSiteConfigLines spec).takeWhile
        (fun l => !(isSecL l)) :=
  ⟨parse_render spec, home_count_render spec, home_before_sections spec⟩

/-- C5 (amended): the rendered site configuration omits the app-link
navigation block when `appLink` is absent **or the empty string** (the
template tests Jinja truthiness, and the empty string is falsy), and
contains the `App`-labelled link pointing at the configured value
whenever `appLink` is present and non-empty. -/
theorem claim_C5_app_link (spec : ManualSpec) :
    ((spec.site.app_link = none ∨ spec.site.app_link = some (lit "")) →
      appTextL ∉ renderSiteConfigLines spec)
    ∧ (∀ s, spec.site.app_link = some s → s ≠ lit "" →
        appHrefLine s ∈ renderSiteConfigLines spec
        ∧ appTextL ∈ renderSiteConfigLines spec) := by
  constructor
  · intro h hmem
    have happ : appTruthy spec.site.app_link = false := by
      rcases h with h | h <;> rw [h] <;> rfl
    unfold renderSiteConfigLines at hmem
    rw [List.mem_append, List.mem_append, List.mem_append,
      List.mem_append] at hmem
    rcases hmem with ((((h1 | h1) | h1) | h1) | h1)
    · exact appText_not_mem_head spec.site h1
    · exact appText_not_mem_pages spec.pages h1
    · exact absurd h1 (by decide)
    · rw [appLines, happ] at h1
      simp at h1
    · exact appText_not_mem_tailLines spec.site h1
  · intro s hs hne
    have happ : appTruthy spec.site.app_link = true := by
      rw [hs]
      show (!s.isEmpty) = true
      cases s with
      | nil => exact absurd rfl hne
      | cons c cs => rfl
    have hlines : appLines spec.site.app_link
        = [lit "  navbar:", lit "    right:", appHrefLine s,
           lit "        text: \"App\"", lit ""] := by
      rw [hs] at happ
      simp only [appLines, hs, happ, if_true, Option.getD_some]
    constructor
    · unfold renderSiteConfigLines
      rw [hlines]
      exact List.mem_append_left _ (List.mem_append_right _
        (List.mem_cons_of_mem _ (List.mem_cons_of_mem _
          (List.mem_cons_self _ _))))
    · unfold renderSiteConfigLines
      rw [hlines]
      exact List.mem_append_left _ (List.mem_append_right _
        (List.mem_cons_of_mem _ (List.mem_cons_of_mem _
          (List.mem_cons_of_mem _ (List.mem_cons_self _ _)))))

/-- C8: whenever the external `quarto render` tool exits non-zero, the
`render` operation raises the fatal `SystemExit` condition carrying the
tool's captured standard output and standard error verbatim and
terminates the process with status 1; when the tool exits zero, no
error is raised. -/
theorem claim_C8_render_failure (res : ProcResult) :
    (res.returncode ≠ 0 →
      runQuartoRender res = .error
        (lit "[qmanual] quarto render failed\nSTDOUT:\n" ++ res.stdout
          ++ lit "\nSTDERR:\n" ++ res.stderr)
      ∧ exitStatus (runQuartoRender res) = 1)
    ∧ (res.returncode = 0 → runQuartoRender res = .ok ()) := by
  constructor
  · intro h
    constructor
    · simp [runQuartoRender, h]
    · simp [runQuartoRender, exitStatus, h]
  · intro h
    simp [runQuartoRender, h]

/-- Witness for C8 at concrete tool outcomes. -/
theorem claim_C8_witness :
    runQuartoRender ⟨1, lit "out", lit "err"⟩ = .error
      (lit "[qmanual] quarto render failed\nSTDOUT:\n" ++ lit "out"
        ++ lit "\nSTDERR:\n" ++ lit "err")
    ∧ runQuartoRender ⟨0, lit "out", lit "err"⟩ = .ok () :=
  ⟨((claim_C8_render_failure ⟨1, lit "out", lit "err"⟩).1 (by decide)).1,
   (claim_C8_render_failure ⟨0, lit "out", lit "err"⟩).2 rfl⟩

/-- Witness for C5 at concrete specs: no `App` label with `appLink`
absent; link and label present with `appLink = "/"`. -/
theorem claim_C5_witness :
    appTextL ∉ renderSiteConfigLines { site := defaultSite, pages := [] }
    ∧ appHrefLine (lit "/") ∈ renderSiteConfigLines
        { site := { defaultSite with app_link := some (lit "/") },
          pages := [] }
    ∧ appTextL ∈ renderSiteConfigLines
        { site := { defaultSite with app_link := some (lit "/") },
          pages := [] } :=
  ⟨(claim_C5_app_link _).1 (Or.inl rfl),
   ((claim_C5_app_link _).2 (lit "/") rfl (by decide)).1,
   ((claim_C5_app_link _).2 (lit "/") rfl (by decide)).2⟩

set_option maxRecDepth 8192 in
/-- C5 counterexample to the claim as stated: with `appLink` present but
equal to the empty string, the field is present yet the rendered
configuration contains no `App`-labelled link (Jinja truthiness, not
presence, controls the block). -/
theorem claim_C5_counterexample :
    (({ site := { defaultSite with app_link := some (lit "") },
        pages := [] } : ManualSpec).site.app_link).isSome = true
    ∧ appTextL ∉ renderSiteConfigLines
        { site := { defaultSite with app_link := some (lit "") },
          pages := [] } := by
  exact ⟨rfl, by decide⟩

/-! ## File-system lemmas for `generate_manual`. -/

theorem fsWrite_same (m : FS) (p c : Str) : fsWrite m p c p = some c := by
  simp [fsWrite]

theorem fsWrite_other (m : FS) (p c q : Str) (h : q ≠ p) :
    fsWrite m p c q = m q := by
  simp [fsWrite, h]

theorem fsWrite_self (m : FS) (p c : Str) (h : m p = some c) :
    fsWrite m p c = m := by
  funext q
  unfold fsWrite
  by_cases hq : q = p
  · rw [if_pos hq, hq, h]
  · rw [if_neg hq]

/-- Replay of a write list, in order (later writes win). -/
def wr (m : FS) (l : List (Str × Str)) : FS :=
  l.foldl (fun m pc => fsWrite m pc.1 pc.2) m

/-- The content of the last write to `q` in a write list, if any. -/
def lastWriteAt : List (Str × Str) → Str → Option Str
  | [], _ => none
  | pc :: rest, q =>
    match lastWriteAt rest q with
    | some c => some c
    | none => if pc.1 = q then some pc.2 else none

theorem wr_eq (l : List (Str × Str)) (m : FS) (q : Str) :
    wr m l q = match lastWriteAt l q with
      | some c => some c
      | none => m q := by
  induction l generalizing m with
  | nil => rfl
  | cons pc rest ih =>
    show wr (fsWrite m pc.1 pc.2) rest q = _
    rw [ih,
      show lastWriteAt (pc :: rest) q
        = match lastWriteAt rest q with
          | some c => some c
          | none => if pc.1 = q then some pc.2 else none from rfl]
    rcases lastWriteAt rest q with _ | c
    · by_cases hq : pc.1 = q
      · simp [fsWrite, hq]
      · simp [fsWrite, hq, Ne.symm hq]
    · rfl

theorem wr_wr (l : List (Str × Str)) (m : FS) : wr (wr m l) l = wr m l := by
  funext q
  rw [wr_eq, wr_eq]
  rcases lastWriteAt l q with _ | c
  · rfl
  · rfl

theorem lastWriteAt_mem (l : List (Str × Str)) (q : Str) (c : Str)
    (h : lastWriteAt l q = some c) : (q, c) ∈ l := by
  induction l with
  | nil => cases h
  | cons pc rest ih =>
    rw [show lastWriteAt (pc :: rest) q
      = match lastWriteAt rest q with
        | some c => some c
        | none => if pc.1 = q then some pc.2 else none from rfl] at h
    rcases hr : lastWriteAt rest q with _ | c'
    · rw [hr] at h
      by_cases hq : pc.1 = q
      · rw [if_pos hq] at h
        cases h
        rw [← hq]
        exact List.mem_cons_self _ _
      · rw [if_neg hq] at h
        cases h
    · rw [hr] at h
      cases h
      exact List.mem_cons_of_mem _ (ih hr)

/-! ## Behaviour of the item-write loop. -/

theorem writeStep_true (st : FS × List (Str × Str)) (pc : Str × Str) :
    writeStep true st pc = (fsWrite st.1 pc.1 pc.2, st.2 ++ [pc]) := by
  simp [writeStep]

theorem foldl_writeStep_false_preserve (l : List (Str × Str))
    (st : FS × List (Str × Str)) (p c : Str) (h : st.1 p = some c) :
    ((l.foldl (writeStep false) st).1) p = some c := by
  induction l generalizing st with
  | nil => exact h
  | cons pc rest ih =>
    rw [List.foldl_cons]
    apply ih
    unfold writeStep
    rcases hex : (st.1 pc.1).isSome with _ | _
    · show (fsWrite st.1 pc.1 pc.2) p = some c
      have hne : p ≠ pc.1 := by
        intro hp
        rw [← hp] at hex
        rw [h] at hex
        cases hex
      rw [fsWrite_other _ _ _ _ hne]
      exact h
    · exact h

theorem foldl_writeStep_isSome (ow : Bool) (l : List (Str × Str))
    (st : FS × List (Str × Str)) (p : Str) (h : (st.1 p).isSome = true) :
    (((l.foldl (writeStep ow) st).1) p).isSome = true := by
  induction l generalizing st with
  | nil => exact h
  | cons pc rest ih =>
    rw [List.foldl_cons]
    apply ih
    unfold writeStep
    by_cases hc : (!ow && (st.1 pc.1).isSome) = true
    · rw [if_pos hc]
      exact h
    · rw [if_neg hc]
      show ((fsWrite st.1 pc.1 pc.2) p).isSome = true
      unfold fsWrite
      by_cases hp : p = pc.1
      · rw [if_pos hp]
        rfl
      · rw [if_neg hp]
        exact h

theorem foldl_writeStep_covers (ow : Bool) (l : List (Str × Str))
    (st : FS × List (Str × Str)) (pc : Str × Str) (hmem : pc ∈ l) :
    (((l.foldl (writeStep ow) st).1) pc.1).isSome = true := by
  induction l generalizing st with
  | nil => cases hmem
  | cons hd rest ih =>
    rw [List.foldl_cons]
    rcases List.mem_cons.mp hmem with rfl | hr
    · apply foldl_writeStep_isSome
      unfold writeStep
      by_cases hc : (!ow && (st.1 pc.1).isSome) = true
      · rw [if_pos hc]
        simp only [Bool.and_eq_true] at hc
        exact hc.2
      · rw [if_neg hc]
        show ((fsWrite st.1 pc.1 pc.2) pc.1).isSome = true
        rw [fsWrite_same]
        rfl
    · exact ih _ hr

theorem foldl_writeStep_false_skip (l : List (Str × Str))
    (st : FS × List (Str × Str))
    (h : ∀ pc ∈ l, (st.1 pc.1).isSome = true) :
    l.foldl (writeStep false) st = st := by
  induction l with
  | nil => rfl
  | cons pc rest ih =>
    rw [List.foldl_cons]
    have hc : (!false && (st.1 pc.1).isSome) = true := by
      rw [h pc (List.mem_cons_self _ _)]
      rfl
    have hstep : writeStep false st pc = st := by
      unfold writeStep
      rw [if_pos hc]
    rw [hstep]
    exact ih (fun pc' h' => h pc' (List.mem_cons_of_mem _ h'))

theorem foldl_writeStep_trace (ow : Bool) (l : List (Str × Str))
    (st : FS × List (Str × Str)) :
    ∃ t, (l.foldl (writeStep ow) st).2 = st.2 ++ t := by
  induction l generalizing st with
  | nil => exact ⟨[], (List.append_nil _).symm⟩
  | cons pc rest ih =>
    rw [List.foldl_cons]
    by_cases hc : (!ow && (st.1 pc.1).isSome) = true
    · have hstep : writeStep ow st pc = st := by
        unfold writeStep
        rw [if_pos hc]
      rw [hstep]
      exact ih st
    · have hstep : writeStep ow st pc
          = (fsWrite st.1 pc.1 pc.2, st.2 ++ [pc]) := by
        unfold writeStep
        rw [if_neg hc]
      rw [hstep]
      rcases ih (fsWrite st.1 pc.1 pc.2, st.2 ++ [pc]) with ⟨t, ht⟩
      refine ⟨[pc] ++ t, ?_⟩
      rw [ht]
      simp [List.append_assoc]

theorem foldl_writeStep_replay (ow : Bool) (l : List (Str × Str))
    (st : FS × List (Str × Str)) (fs : FS) (h : st.1 = wr fs st.2) :
    (l.foldl (writeStep ow) st).1 = wr fs (l.foldl (writeStep ow) st).2 := by
  induction l generalizing st with
  | nil => exact h
  | cons pc rest ih =>
    rw [List.foldl_cons]
    apply ih
    unfold writeStep
    by_cases hc : (!ow && (st.1 pc.1).isSome) = true
    · rw [if_pos hc]
      exact h
    · rw [if_neg hc]
      show fsWrite st.1 pc.1 pc.2 = wr fs (st.2 ++ [pc])
      rw [h]
      unfold wr
      rw [List.foldl_append]
      rfl

theorem foldl_writeStep_true_trace (l : List (Str × Str))
    (st : FS × List (Str × Str)) :
    (l.foldl (writeStep true) st).2 = st.2 ++ l := by
  induction l generalizing st with
  | nil => simp
  | cons pc rest ih =>
    rw [List.foldl_cons, writeStep_true, ih]
    simp

theorem foldl_writeStep_false_frame (l : List (Str × Str))
    (st : FS × List (Str × Str)) (p : Str) (hs : (st.1 p).isSome = true) :
    ∀ pc ∈ (l.foldl (writeStep false) st).2, pc ∈ st.2 ∨ pc.1 ≠ p := by
  induction l generalizing st with
  | nil =>
    intro pc h
    exact Or.inl h
  | cons hd rest ih =>
    rw [List.foldl_cons]
    intro pc hpc
    unfold writeStep at hpc
    by_cases hc : (!false && (st.1 hd.1).isSome) = true
    · rw [if_pos hc] at hpc
      exact ih st hs pc hpc
    · rw [if_neg hc] at hpc
      have hd_ne : hd.1 ≠ p := by
        intro he
        apply hc
        show (!false && (st.1 hd.1).isSome) = true
        rw [he, hs]
        rfl
      have hs' : ((fsWrite st.1 hd.1 hd.2) p).isSome = true := by
        rw [fsWrite_other _ _ _ _ (Ne.symm hd_ne)]
        exact hs
      rcases ih (fsWrite st.1 hd.1 hd.2, st.2 ++ [hd]) hs' pc hpc with hin | hne
      · rcases List.mem_append.mp hin with h1 | h1
        · exact Or.inl h1
        · rcases List.mem_cons.mp h1 with rfl | h2
          · exact Or.inr hd_ne
          · cases h2
      · exact Or.inr hne

/-- `generate_manual` unfolded past its two fixed writes: the home write
condition reads the pre-state because `index.qmd ≠ _quarto.yml`. -/
theorem generateW_unfold (spec : ManualSpec) (ow : Bool) (fs : FS) :
    generateW spec ow fs = (pageWrites spec).foldl (writeStep ow)
      (if ow || !(fs idxName).isSome then
        (fsWrite (fsWrite fs qymlName (renderSiteConfig spec)) idxName
           (renderHomePage spec),
         [(qymlName, renderSiteConfig spec), (idxName, renderHomePage spec)])
       else
        (fsWrite fs qymlName (renderSiteConfig spec),
         [(qymlName, renderSiteConfig spec)])) := by
  unfold generateW
  simp only [show (fsWrite fs qymlName (renderSiteConfig spec)) idxName
    = fs idxName from fsWrite_other _ _ _ _ (by decide)]
  rfl

/-! ## Derived facts about a single `generate` run. -/

theorem generate_false_qyml (spec : ManualSpec) (fs : FS) :
    generate spec false fs qymlName = some (renderSiteConfig spec) := by
  unfold generate
  rw [generateW_unfold]
  apply foldl_writeStep_false_preserve
  by_cases hc : (false || !(fs idxName).isSome) = true
  · rw [if_pos hc]
    show (fsWrite (fsWrite fs qymlName (renderSiteConfig spec)) idxName
      (renderHomePage spec)) qymlName = some (renderSiteConfig spec)
    rw [fsWrite_other _ _ _ _ (by decide), fsWrite_same]
  · rw [if_neg hc]
    show (fsWrite fs qymlName (renderSiteConfig spec)) qymlName
      = some (renderSiteConfig spec)
    exact fsWrite_same _ _ _

theorem generate_false_idx_some (spec : ManualSpec) (fs : FS) :
    (((generateW spec false fs).1) idxName).isSome = true := by
  rw [generateW_unfold]
  apply foldl_writeStep_isSome
  by_cases hc : (false || !(fs idxName).isSome) = true
  · rw [if_pos hc]
    show ((fsWrite (fsWrite fs qymlName (renderSiteConfig spec)) idxName
      (renderHomePage spec)) idxName).isSome = true
    rw [fsWrite_same]
    rfl
  · rw [if_neg hc]
    show ((fsWrite fs qymlName (renderSiteConfig spec)) idxName).isSome = true
    rw [fsWrite_other _ _ _ _ (by decide)]
    rcases hb : (fs idxName).isSome with _ | _
    · exact absurd (by rw [hb]; rfl) hc
    · rfl

theorem generate_covers (spec : ManualSpec) (ow : Bool) (fs : FS) :
    ∀ pc ∈ pageWrites spec, (((generateW spec ow fs).1) pc.1).isSome = true := by
  intro pc hpc
  rw [generateW_unfold]
  exact foldl_writeStep_covers ow (pageWrites spec) _ pc hpc

theorem generateW_replay (spec : ManualSpec) (ow : Bool) (fs : FS) :
    (generateW spec ow fs).1 = wr fs (generateW spec ow fs).2 := by
  rw [generateW_unfold]
  apply foldl_writeStep_replay
  by_cases hc : (ow || !(fs idxName).isSome) = true
  · rw [if_pos hc]
    rfl
  · rw [if_neg hc]
    rfl

theorem generateW_true_trace (spec : ManualSpec) (fs : FS) :
    (generateW spec true fs).2
      = (qymlName, renderSiteConfig spec)
        :: (idxName, renderHomePage spec) :: pageWrites spec := by
  rw [generateW_unfold]
  rw [if_pos (by simp)]
  rw [foldl_writeStep_true_trace]
  rfl

theorem generateW_trace_head (spec : ManualSpec) (ow : Bool) (fs : FS) :
    ((generateW spec ow fs).2).head?
      = some (qymlName, renderSiteConfig spec) := by
  rw [generateW_unfold]
  by_cases hc : (ow || !(fs idxName).isSome) = true
  · rw [if_pos hc]
    rcases foldl_writeStep_trace ow (pageWrites spec)
      (fsWrite (fsWrite fs qymlName (renderSiteConfig spec)) idxName
        (renderHomePage spec),
       [(qymlName, renderSiteConfig spec), (idxName, renderHomePage spec)])
      with ⟨t, ht⟩
    rw [ht]
    rfl
  · rw [if_neg hc]
    rcases foldl_writeStep_trace ow (pageWrites spec)
      (fsWrite fs qymlName (renderSiteConfig spec),
       [(qymlName, renderSiteConfig spec)]) with ⟨t, ht⟩
    rw [ht]
    rfl

/-! ## Claim theorems (C2, C3, C7). -/

/-- C2: running `generate` twice with `overwrite=false` leaves the file
system of the first run unchanged (the site-config file is rewritten,
with identical bytes); running twice with `overwrite=true` is fully
idempotent, every file ending up byte-identical after either run. -/
theorem claim_C2_idempotence (spec : ManualSpec) (fs : FS) :
    generate spec false (generate spec false fs) = generate spec false fs
    ∧ ((generateW spec false (generate spec false fs)).2).head?
        = some (qymlName, renderSiteConfig spec)
    ∧ generate spec true (generate spec true fs) = generate spec true fs := by
  refine ⟨?_, generateW_trace_head spec false _, ?_⟩
  · have h1 : generate spec false fs qymlName = some (renderSiteConfig spec) :=
      generate_false_qyml spec fs
    have h2 : (((generateW spec false fs).1) idxName).isSome = true :=
      generate_false_idx_some spec fs
    have h3 := generate_covers spec false fs
    show (generateW spec false (generate spec false fs)).1
      = (generateW spec false fs).1
    rw [generateW_unfold spec false (generate spec false fs)]
    rw [if_neg (by
      show ¬(false || !((generate spec false fs) idxName).isSome) = true
      show ¬(false || !(((generateW spec false fs).1) idxName).isSome) = true
      rw [h2]
      simp)]
    show ((pageWrites spec).foldl (writeStep false)
      (fsWrite (generate spec false fs) qymlName (renderSiteConfig spec),
       [(qymlName, renderSiteConfig spec)])).1 = _
    rw [fsWrite_self _ _ _ h1]
    rw [foldl_writeStep_false_skip (pageWrites spec)
      (generate spec false fs, [(qymlName, renderSiteConfig spec)])
      (fun pc hpc => h3 pc hpc)]
    rfl
  · show (generateW spec true ((generateW spec true fs).1)).1
      = (generateW spec true fs).1
    rw [generateW_replay spec true ((generateW spec true fs).1)]
    rw [generateW_true_trace spec ((generateW spec true fs).1)]
    rw [generateW_replay spec true fs, generateW_true_trace spec fs]
    exact wr_wr _ fs

/-- C7: the writes `generate` performs are sequential and unchecked, so
at any path written at least once — in particular a path two `PageItem`s
share, or one colliding with the fixed `_quarto.yml` / `index.qmd`
filenames — the file ends up holding the content of the write performed
last, and no error is reported (the operation is total). -/
theorem claim_C7_last_write_wins (spec : ManualSpec) (ow : Bool) (fs : FS)
    (p : Str) (c : Str)
    (h : lastWriteAt ((generateW spec ow fs).2) p = some c) :
    generate spec ow fs p = some c := by
  show (generateW spec ow fs).1 p = some c
  rw [generateW_replay, wr_eq, h]

/-- The empty output directory. -/
def emptyFS : FS := fun _ => none

/-- A spec with two `PageItem`s declaring the same path. -/
def dupSpec : ManualSpec :=
  { site := defaultSite,
    pages := [{ sectionName := lit "S",
                items := [{ path := lit "a.qmd", title := lit "A" },
                          { path := lit "a.qmd", title := lit "B" }] }] }

set_option maxRecDepth 8192 in
/-- Witness for C7: with two items sharing path `a.qmd`, the file ends
up with the second item's stub content. -/
theorem claim_C7_witness :
    generate dupSpec true emptyFS (lit "a.qmd")
      = some (renderPage (lit "B") (lit "S") (lit "a.qmd")) :=
  claim_C7_last_write_wins dupSpec true emptyFS (lit "a.qmd")
    (renderPage (lit "B") (lit "S") (lit "a.qmd")) (by decide)

theorem foldl_writeStep_true_mem (l : List (Str × Str))
    (st : FS × List (Str × Str)) (pc : Str × Str) (hmem : pc ∈ l) :
    pc ∈ (l.foldl (writeStep true) st).2 := by
  induction l generalizing st with
  | nil => cases hmem
  | cons hd rest ih =>
    rw [List.foldl_cons]
    rcases List.mem_cons.mp hmem with rfl | hr
    · rw [writeStep_true]
      rcases foldl_writeStep_trace true rest
        (fsWrite st.1 pc.1 pc.2, st.2 ++ [pc]) with ⟨t, ht⟩
      rw [ht]
      exact List.mem_append_left _
        (List.mem_append_right _ (List.mem_cons_self _ _))
    · exact ih _ hr

theorem pageWrites_mem (spec : ManualSpec) (sec : PageSection)
    (it : PageItem) (hs : sec ∈ spec.pages) (hi : it ∈ sec.items) :
    (it.path, renderPage it.title sec.sectionName it.path)
      ∈ pageWrites spec := by
  unfold pageWrites
  exact List.mem_flatMap.mpr ⟨sec, hs, List.mem_map.mpr ⟨it, hi, rfl⟩⟩

/-- C3 (amended): `generate` always performs the site-config write
first and unconditionally; the home page is written exactly when
`overwrite` holds or the file is absent; with `overwrite=false` every
pre-existing file **other than one at the reserved `_quarto.yml` path**
is left byte-identical; and each declared stub is written whenever
`overwrite` holds or its path held no file. -/
theorem claim_C3_overwrite_policy (spec : ManualSpec) (ow : Bool) (fs : FS) :
    ((generateW spec ow fs).2).head? = some (qymlName, renderSiteConfig spec)
    ∧ ((ow = true ∨ fs idxName = none) →
        (idxName, renderHomePage spec) ∈ (generateW spec ow fs).2)
    ∧ (ow = false → (fs idxName).isSome = true →
        ∀ pc ∈ (generateW spec ow fs).2, pc.1 ≠ idxName)
    ∧ (ow = false → ∀ p, p ≠ qymlName → ∀ c, fs p = some c →
        generate spec ow fs p = some c)
    ∧ (∀ sec ∈ spec.pages, ∀ it ∈ sec.items,
        (ow = true →
          (it.path, renderPage it.title sec.sectionName it.path)
            ∈ (generateW spec ow fs).2)
        ∧ (fs it.path = none →
            ∃ c, (it.path, c) ∈ (generateW spec ow fs).2)) := by
  refine ⟨generateW_trace_head spec ow fs, ?_, ?_, ?_, ?_⟩
  · intro hcond
    rw [generateW_unfold]
    have hc : (ow || !(fs idxName).isSome) = true := by
      rcases hcond with h | h
      · rw [h]
        rfl
      · rw [h]
        simp
    rw [if_pos hc]
    rcases foldl_writeStep_trace ow (pageWrites spec)
      (fsWrite (fsWrite fs qymlName (renderSiteConfig spec)) idxName
        (renderHomePage spec),
       [(qymlName, renderSiteConfig spec), (idxName, renderHomePage spec)])
      with ⟨t, ht⟩
    rw [ht]
    exact List.mem_append_left _
      (List.mem_cons_of_mem _ (List.mem_cons_self _ _))
  · intro how hsome pc hpc
    subst how
    rw [generateW_unfold] at hpc
    have hc : ¬(false || !(fs idxName).isSome) = true := by
      rw [hsome]
      simp
    rw [if_neg hc] at hpc
    have hs2 : (((fsWrite fs qymlName (renderSiteConfig spec),
        [(qymlName, renderSiteConfig spec)]) : FS × List (Str × Str)).1
          idxName).isSome = true := by
      show ((fsWrite fs qymlName (renderSiteConfig spec)) idxName).isSome
        = true
      rw [fsWrite_other _ _ _ _ (by decide)]
      exact hsome
    rcases foldl_writeStep_false_frame (pageWrites spec)
      (fsWrite fs qymlName (renderSiteConfig spec),
       [(qymlName, renderSiteConfig spec)]) idxName hs2 pc hpc
      with hin | hne
    · rcases List.mem_cons.mp hin with rfl | h2
      · show qymlName ≠ idxName
        decide
      · cases h2
    · exact hne
  · intro how p hp c hfs
    subst how
    show (generateW spec false fs).1 p = some c
    rw [generateW_unfold]
    apply foldl_writeStep_false_preserve
    by_cases hc : (false || !(fs idxName).isSome) = true
    · rw [if_pos hc]
      have hpidx : p ≠ idxName := by
        intro he
        have : (fs idxName).isSome = false := by
          rcases hb : (fs idxName).isSome with _ | _
          · rfl
          · exact absurd (by rw [hb]; rfl : (false || !(fs idxName).isSome)
              = false) (by rw [hc]; simp)
        rw [← he, hfs] at this
        cases this
      show (fsWrite (fsWrite fs qymlName (renderSiteConfig spec)) idxName
        (renderHomePage spec)) p = some c
      rw [fsWrite_other _ _ _ _ hpidx, fsWrite_other _ _ _ _ hp]
      exact hfs
    · rw [if_neg hc]
      show (fsWrite fs qymlName (renderSiteConfig spec)) p = some c
      rw [fsWrite_other _ _ _ _ hp]
      exact hfs
  · intro sec hsec it hit
    constructor
    · intro how
      subst how
      rw [generateW_unfold]
      rw [if_pos (by simp)]
      exact foldl_writeStep_true_mem _ _ _
        (pageWrites_mem spec sec it hsec hit)
    · intro hnone
      have hsome : (((generateW spec ow fs).1) it.path).isSome = true :=
        generate_covers spec ow fs _ (pageWrites_mem spec sec it hsec hit)
      have hrep : (generateW spec ow fs).1 it.path
          = wr fs ((generateW spec ow fs).2) it.path :=
        congrFun (generateW_replay spec ow fs) it.path
      rw [wr_eq] at hrep
      rcases hlast : lastWriteAt ((generateW spec ow fs).2) it.path
        with _ | c
      · rw [hlast] at hrep
        rw [hnone] at hrep
        rw [hrep] at hsome
        cases hsome
      · exact ⟨c, lastWriteAt_mem _ _ _ hlast⟩

/-- A spec whose single stub path collides with the reserved
`_quarto.yml` filename. -/
def collideSpec : ManualSpec :=
  { site := defaultSite,
    pages := [{ sectionName := lit "S",
                items := [{ path := lit "_quarto.yml",
                            title := lit "T" }] }] }

/-- A prior file system holding hand-written content at `_quarto.yml`. -/
def preFS : FS :=
  fun q => if q = lit "_quarto.yml" then some (lit "OLD") else none

set_option maxRecDepth 8192 in
/-- C3 counterexample to the claim as stated: with `overwrite=false`, a
pre-existing stub whose declared path is `_quarto.yml` is **not** left
byte-identical — the unconditional site-config write clobbers it. -/
theorem claim_C3_counterexample :
    preFS qymlName = some (lit "OLD")
    ∧ generate collideSpec false preFS qymlName ≠ some (lit "OLD") := by
  exact ⟨rfl, by decide⟩

/-- Witness for C3 at a concrete run: `overwrite=false` on a state
holding `index.qmd` and a stub file preserves both and still rewrites
the site configuration. -/
theorem claim_C3_witness :
    ((generateW sampleSpec false emptyFS).2).head?
      = some (qymlName, renderSiteConfig sampleSpec)
    ∧ (idxName, renderHomePage sampleSpec)
        ∈ (generateW sampleSpec false emptyFS).2
    ∧ generate sampleSpec false
        (fun q => if q = lit "a.qmd" then some (lit "KEEP") else none)
        (lit "a.qmd") = some (lit "KEEP") := by
  refine ⟨(claim_C3_overwrite_policy sampleSpec false emptyFS).1,
    (claim_C3_overwrite_policy sampleSpec false emptyFS).2.1
      (Or.inr rfl), ?_⟩
  exact (claim_C3_overwrite_policy sampleSpec false _).2.2.2.1 rfl
    (lit "a.qmd") (by decide) (lit "KEEP") (by decide)

/-! ## Loader decomposition and key-handling lemmas. -/

theorem except_bind_ok {α β : Type} {x : Except LoadError α}
    {f : α → Except LoadError β} {b : β} (h : (x >>= f) = .ok b) :
    ∃ a, x = .ok a ∧ f a = .ok b := by
  rcases x with e | a
  · have h' : (Except.error e : Except LoadError β) = .ok b := h
    cases h'
  · exact ⟨a, rfl, h⟩

theorem pyOr_map (l : List (Str × Yaml)) :
    pyOr (.map l) (.map []) = .map l := by
  cases l with
  | nil => rfl
  | cons a l' => rfl

theorem pyOr_seq (l : List Yaml) : pyOr (.seq l) (.seq []) = .seq l := by
  cases l with
  | nil => rfl
  | cons a l' => rfl

theorem pyLookup_erase_self (l : List (Str × Yaml)) (k : Str) :
    pyLookup (eraseKey l k) k = none := by
  induction l with
  | nil => rfl
  | cons a rest ih =>
    unfold eraseKey at *
    rw [List.filter_cons]
    by_cases ha : a.1 = k
    · rw [if_neg (by simp [ha])]
      exact ih
    · rw [if_pos (by simp [ha])]
      show (if a.1 = k then some a.2 else pyLookup (List.filter _ rest) k)
        = none
      rw [if_neg ha]
      exact ih

theorem pyLookup_erase_other (l : List (Str × Yaml)) (k q : Str)
    (h : q ≠ k) : pyLookup (eraseKey l k) q = pyLookup l q := by
  induction l with
  | nil => rfl
  | cons a rest ih =>
    unfold eraseKey at *
    rw [List.filter_cons]
    by_cases ha : a.1 = k
    · rw [if_neg (by simp [ha])]
      rw [ih]
      show pyLookup rest q
        = (if a.1 = q then some a.2 else pyLookup rest q)
      rw [if_neg (by rw [ha]; exact fun he => h he.symm)]
    · rw [if_pos (by simp [ha])]
      show (if a.1 = q then some a.2 else pyLookup (List.filter _ rest) q)
        = (if a.1 = q then some a.2 else pyLookup rest q)
      by_cases haq : a.1 = q
      · rw [if_pos haq, if_pos haq]
      · rw [if_neg haq, if_neg haq]
        exact ih

theorem loadSite_decompose (l : List (Str × Yaml)) :
    loadSite (.map l)
      = (asStr ((pyLookup l (lit "title")).getD (.str (lit "Manual")))
          >>= fun title =>
        asStr ((pyLookup l (lit "theme")).getD (.str (lit "cosmo")))
          >>= fun theme =>
        asOptStr ((pyLookup l (lit "app_link")).getD .null)
          >>= fun app_link =>
        (fun sb =>
          dictGet sb (lit "style") (.str (lit "docked")) >>= fun sv =>
          asStr sv >>= fun style =>
          dictGet sb (lit "search") (.bool true) >>= fun searchv =>
          dictGet sb (lit "collapse_level") (.int 1) >>= fun cv =>
          pyInt cv >>= fun collapse =>
          pure { title := title, theme := theme, app_link := app_link,
                 sidebar_style := style,
                 sidebar_search := pyTruthy searchv,
                 collapse_level := collapse })
          (pyOr ((pyLookup l (lit "sidebar")).getD (.map [])) (.map []))) :=
  rfl

theorem loadSpec_decompose (l : List (Str × Yaml)) :
    loadSpec (.map l)
      = (loadSite (pyOr ((pyLookup l (lit "site")).getD (.map []))
          (.map [])) >>= fun site =>
         loadPages (.map l) >>= fun pages =>
         pure { site := site, pages := pages }) := by
  cases l with
  | nil => rfl
  | cons a l' => rfl

theorem loadPages_decompose (l : List (Str × Yaml)) :
    loadPages (.map l)
      = (match pyOr ((pyLookup l (lit "pages")).getD (.seq [])) (.seq []) with
         | .seq secs => secs.mapM loadSection
         | _ => .error .typeError) :=
  rfl

theorem loadSection_decompose (l : List (Str × Yaml)) :
    loadSection (.map l)
      = (loadItems (pyOr ((pyLookup l (lit "items")).getD .null) (.seq []))
          >>= fun items =>
         asStr ((pyLookup l (lit "section")).getD (.str (lit "Section")))
           >>= fun name =>
         pure { sectionName := name, items := items }) :=
  rfl

/-! ## Claim theorems (C6, C9, C10). -/

/-- C6: an empty or absent document (which the YAML parser turns into
`None`) loads successfully into a `ManualSpec` with the all-default
`SiteSpec` (title `Manual`, theme `cosmo`, no app link, sidebar style
`docked`, search on, collapse level 1) and an empty pages sequence; and
any document whose `site` mapping lacks the `sidebar` key gets the three
sidebar defaults. -/
theorem claim_C6_defaults :
    loadSpec .null = .ok { site := defaultSite, pages := [] }
    ∧ ∀ siteL : List (Str × Yaml), pyLookup siteL (lit "sidebar") = none →
        ∀ st, loadSite (.map siteL) = .ok st →
          st.sidebar_style = lit "docked" ∧ st.sidebar_search = true
            ∧ st.collapse_level = 1 := by
  refine ⟨rfl, ?_⟩
  intro siteL hsb st hload
  rw [loadSite_decompose, hsb] at hload
  rcases except_bind_ok hload with ⟨t1, _, hload⟩
  rcases except_bind_ok hload with ⟨t2, _, hload⟩
  rcases except_bind_ok hload with ⟨t3, _, hload⟩
  have h' : Except.ok (ε := LoadError)
      ({ title := t1, theme := t2, app_link := t3,
         sidebar_style := lit "docked", sidebar_search := true,
         collapse_level := 1 } : SiteSpec) = .ok st := hload
  injection h' with h''
  rw [← h'']
  exact ⟨rfl, rfl, rfl⟩

/-- Witness for C6: a document with only a title set still gets all
three sidebar defaults. -/
theorem claim_C6_witness :
    loadSite (.map [(lit "title", .str (lit "Demo"))])
      = .ok { title := lit "Demo", theme := lit "cosmo", app_link := none,
              sidebar_style := lit "docked", sidebar_search := true,
              collapse_level := 1 }
    ∧ ({ title := lit "Demo", theme := lit "cosmo", app_link := none,
         sidebar_style := lit "docked", sidebar_search := true,
         collapse_level := 1 } : SiteSpec).sidebar_style = lit "docked"
    ∧ ({ title := lit "Demo", theme := lit "cosmo", app_link := none,
         sidebar_style := lit "docked", sidebar_search := true,
         collapse_level := 1 } : SiteSpec).sidebar_search = true
    ∧ ({ title := lit "Demo", theme := lit "cosmo", app_link := none,
         sidebar_style := lit "docked", sidebar_search := true,
         collapse_level := 1 } : SiteSpec).collapse_level = 1 := by
  refine ⟨rfl, ?_, ?_, ?_⟩
  · exact (claim_C6_defaults.2 [(lit "title", .str (lit "Demo"))] rfl _
      rfl).1
  · exact (claim_C6_defaults.2 [(lit "title", .str (lit "Demo"))] rfl _
      rfl).2.1
  · exact (claim_C6_defaults.2 [(lit "title", .str (lit "Demo"))] rfl _
      rfl).2.2

/-- C9: an explicit `null` for the top-level document, the `site`
mapping, the `pages` sequence, the `sidebar` sub-mapping, or a section's
`items` sequence is loaded exactly as if the key (or document) were
absent; each `x or default` guard in `load_spec` maps `None` to the
absent-key default. -/
theorem claim_C9_null_as_absent :
    loadSpec .null = loadSpec (.map [])
    ∧ (∀ docL, pyLookup docL (lit "site") = some .null →
        loadSpec (.map docL)
          = loadSpec (.map (eraseKey docL (lit "site"))))
    ∧ (∀ docL, pyLookup docL (lit "pages") = some .null →
        loadSpec (.map docL)
          = loadSpec (.map (eraseKey docL (lit "pages"))))
    ∧ (∀ siteL, pyLookup siteL (lit "sidebar") = some .null →
        loadSite (.map siteL)
          = loadSite (.map (eraseKey siteL (lit "sidebar"))))
    ∧ (∀ secL, pyLookup secL (lit "items") = some .null →
        loadSection (.map secL)
          = loadSection (.map (eraseKey secL (lit "items")))) := by
  refine ⟨rfl, ?_, ?_, ?_, ?_⟩
  · intro docL h
    rw [loadSpec_decompose, loadSpec_decompose, h,
      pyLookup_erase_self docL (lit "site"),
      loadPages_decompose, loadPages_decompose,
      pyLookup_erase_other docL (lit "site") (lit "pages") (by decide)]
    exact rfl
  · intro docL h
    rw [loadSpec_decompose, loadSpec_decompose,
      loadPages_decompose, loadPages_decompose, h,
      pyLookup_erase_self docL (lit "pages"),
      pyLookup_erase_other docL (lit "pages") (lit "site") (by decide)]
    exact rfl
  · intro siteL h
    rw [loadSite_decompose, loadSite_decompose, h,
      pyLookup_erase_self siteL (lit "sidebar"),
      pyLookup_erase_other siteL (lit "sidebar") (lit "title") (by decide),
      pyLookup_erase_other siteL (lit "sidebar") (lit "theme") (by decide),
      pyLookup_erase_other siteL (lit "sidebar") (lit "app_link")
        (by decide)]
    exact rfl
  · intro secL h
    rw [loadSection_decompose, loadSection_decompose, h,
      pyLookup_erase_self secL (lit "items"),
      pyLookup_erase_other secL (lit "items") (lit "section") (by decide)]
    exact rfl

/-- Witness for C9 at concrete documents carrying explicit `null`s. -/
theorem claim_C9_witness :
    loadSpec (.map [(lit "site", .null)])
      = loadSpec (.map (eraseKey [(lit "site", .null)] (lit "site")))
    ∧ loadSpec (.map [(lit "pages", .null)])
      = loadSpec (.map (eraseKey [(lit "pages", .null)] (lit "pages")))
    ∧ loadSite (.map [(lit "sidebar", .null)])
      = loadSite (.map (eraseKey [(lit "sidebar", .null)] (lit "sidebar")))
    ∧ loadSection (.map [(lit "items", .null)])
      = loadSection (.map (eraseKey [(lit "items", .null)] (lit "items"))) :=
  ⟨claim_C9_null_as_absent.2.1 _ rfl,
   claim_C9_null_as_absent.2.2.1 _ rfl,
   claim_C9_null_as_absent.2.2.2.1 _ rfl,
   claim_C9_null_as_absent.2.2.2.2 _ rfl⟩

/-- C10: `sidebar.search` is coerced by Python `bool(...)` truthiness,
not boolean parsing — every non-empty string (including `"false"`) gives
`sidebar_search = true`, the falsy scalars `0`, `""`, `null` give
`false`, and the coercion is total (`pyTruthy` never rejects a value),
as reflected in the loaded `SiteSpec`. -/
theorem claim_C10_search_truthiness :
    (∀ s : Str, s ≠ [] → pyTruthy (.str s) = true)
    ∧ pyTruthy (.str (lit "false")) = true
    ∧ pyTruthy (.int 0) = false
    ∧ pyTruthy (.str (lit "")) = false
    ∧ pyTruthy .null = false
    ∧ (∀ siteL sbL v st,
        pyLookup siteL (lit "sidebar") = some (.map sbL) →
        pyLookup sbL (lit "search") = some v →
        loadSite (.map siteL) = .ok st →
        st.sidebar_search = pyTruthy v) := by
  refine ⟨?_, rfl, rfl, rfl, rfl, ?_⟩
  · intro s hs
    cases s with
    | nil => exact absurd rfl hs
    | cons c cs => rfl
  · intro siteL sbL v st hsb hsearch hload
    rw [loadSite_decompose, hsb] at hload
    cases sbL with
    | nil => cases hsearch
    | cons kv rest =>
      rcases except_bind_ok hload with ⟨t1, _, hload⟩
      rcases except_bind_ok hload with ⟨t2, _, hload⟩
      rcases except_bind_ok hload with ⟨t3, _, hload⟩
      rcases except_bind_ok hload with ⟨sv, _, hload⟩
      rcases except_bind_ok hload with ⟨style, _, hload⟩
      rcases except_bind_ok hload with ⟨searchv, hsv, hload⟩
      rcases except_bind_ok hload with ⟨cv, _, hload⟩
      rcases except_bind_ok hload with ⟨collapse, _, hload⟩
      have hsv' : Except.ok (ε := LoadError)
          ((pyLookup (kv :: rest) (lit "search")).getD (.bool true))
          = .ok searchv := hsv
      injection hsv' with hsv2
      have h' : Except.ok (ε := LoadError)
          ({ title := t1, theme := t2, app_link := t3,
             sidebar_style := style, sidebar_search := pyTruthy searchv,
             collapse_level := collapse } : SiteSpec) = .ok st := hload
      injection h' with h2
      rw [← h2]
      show pyTruthy searchv = pyTruthy v
      rw [← hsv2, hsearch]
      rfl

/-- Witness for C10: the quoted string `"false"` still turns search on. -/
theorem claim_C10_witness :
    pyTruthy (.str (lit "false")) = true
    ∧ (∃ st, loadSite (.map [(lit "sidebar",
        .map [(lit "search", .str (lit "false"))])]) = .ok st
        ∧ st.sidebar_search = pyTruthy (.str (lit "false"))) := by
  refine ⟨claim_C10_search_truthiness.1 (lit "false") (by decide), ?_⟩
  refine ⟨{ title := lit "Manual", theme := lit "cosmo", app_link := none,
            sidebar_style := lit "docked", sidebar_search := true,
            collapse_level := 1 }, rfl, ?_⟩
  exact claim_C10_search_truthiness.2.2.2.2.2
    [(lit "sidebar", .map [(lit "search", .str (lit "false"))])]
    [(lit "search", .str (lit "false"))] (.str (lit "false")) _ rfl rfl rfl

/-! ## C1: items missing `path` or `title` fail with the missing-field
error. -/

/-- An item mapping whose present `path`/`title` values (if any) are
strings — the shape on which the typed model agrees with the code. -/
def ItemTyped (i : Yaml) : Prop :=
  ∃ l, i = .map l
    ∧ (∀ v, pyLookup l (lit "path") = some v → ∃ s, v = .str s)
    ∧ (∀ v, pyLookup l (lit "title") = some v → ∃ s, v = .str s)

/-- An item mapping missing `path` or missing `title`. -/
def ItemMissing (i : Yaml) : Prop :=
  ∃ l, i = .map l
    ∧ (pyLookup l (lit "path") = none ∨ pyLookup l (lit "title") = none)

/-- A section mapping whose items sequence is well shaped. -/
def SecTyped (sec : Yaml) : Prop :=
  ∃ l, sec = .map l
    ∧ (∃ itemsL, pyOr ((pyLookup l (lit "items")).getD .null) (.seq [])
        = .seq itemsL ∧ ∀ i ∈ itemsL, ItemTyped i)
    ∧ (∀ v, pyLookup l (lit "section") = some v → ∃ s, v = .str s)

/-- A section one of whose items misses `path` or `title`. -/
def SecBad (sec : Yaml) : Prop :=
  ∃ l, sec = .map l
    ∧ ∃ itemsL, pyOr ((pyLookup l (lit "items")).getD .null) (.seq [])
        = .seq itemsL ∧ ∃ i ∈ itemsL, ItemMissing i

theorem loadItem_decompose (l : List (Str × Yaml)) :
    loadItem (.map l)
      = (getField l (lit "path") >>= fun path =>
         getField l (lit "title") >>= fun title =>
         pure { path := path, title := title }) :=
  rfl

theorem getField_none (l : List (Str × Yaml)) (k : Str)
    (h : pyLookup l k = none) :
    getField l k = .error (.missingField k) := by
  unfold getField
  rw [h]

theorem getField_str (l : List (Str × Yaml)) (k : Str) (s : Str)
    (h : pyLookup l k = some (.str s)) : getField l k = .ok s := by
  unfold getField
  rw [h]
  rfl

theorem loadItem_typed (i : Yaml) (ht : ItemTyped i) :
    (∃ pi, loadItem i = .ok pi)
    ∨ ∃ k, loadItem i = .error (.missingField k) := by
  rcases ht with ⟨l, rfl, hp, htl⟩
  rw [loadItem_decompose]
  rcases hpf : pyLookup l (lit "path") with _ | v
  · right
    refine ⟨lit "path", ?_⟩
    rw [getField_none l _ hpf]
    exact rfl
  · rcases hp v hpf with ⟨s, rfl⟩
    rw [getField_str l _ s hpf]
    rcases htf : pyLookup l (lit "title") with _ | w
    · right
      refine ⟨lit "title", ?_⟩
      rw [getField_none l _ htf]
      exact rfl
    · rcases htl w htf with ⟨t, rfl⟩
      left
      refine ⟨{ path := s, title := t }, ?_⟩
      rw [getField_str l _ t htf]
      exact rfl

theorem loadItem_bad (i : Yaml) (ht : ItemTyped i) (hm : ItemMissing i) :
    ∃ k, loadItem i = .error (.missingField k) := by
  rcases ht with ⟨l, rfl, hp, htl⟩
  rcases hm with ⟨l', he, hmiss⟩
  injection he with he'
  subst he'
  rw [loadItem_decompose]
  rcases hmiss with h | h
  · refine ⟨lit "path", ?_⟩
    rw [getField_none l _ h]
    exact rfl
  · rcases hpf : pyLookup l (lit "path") with _ | v
    · refine ⟨lit "path", ?_⟩
      rw [getField_none l _ hpf]
      exact rfl
    · rcases hp v hpf with ⟨s, rfl⟩
      refine ⟨lit "title", ?_⟩
      rw [getField_str l _ s hpf, getField_none l _ h]
      exact rfl

theorem mapM_loadItem_typed (items : List Yaml)
    (ht : ∀ i ∈ items, ItemTyped i) :
    (∃ xs, items.mapM loadItem = .ok xs)
    ∨ ∃ k, items.mapM loadItem = .error (.missingField k) := by
  induction items with
  | nil => exact Or.inl ⟨[], rfl⟩
  | cons a rest ih =>
    rw [List.mapM_cons]
    rcases loadItem_typed a (ht a (List.mem_cons_self _ _))
      with ⟨pa, hpa⟩ | ⟨k, hk⟩
    · rcases ih (fun j hj => ht j (List.mem_cons_of_mem _ hj))
        with ⟨xs, hxs⟩ | ⟨k, hk⟩
      · exact Or.inl ⟨pa :: xs, by rw [hpa, hxs]; exact rfl⟩
      · exact Or.inr ⟨k, by rw [hpa, hk]; exact rfl⟩
    · exact Or.inr ⟨k, by rw [hk]; exact rfl⟩

theorem mapM_loadItem_bad (items : List Yaml)
    (ht : ∀ i ∈ items, ItemTyped i) (hb : ∃ i ∈ items, ItemMissing i) :
    ∃ k, items.mapM loadItem = .error (.missingField k) := by
  induction items with
  | nil =>
    rcases hb with ⟨i, hi, _⟩
    cases hi
  | cons a rest ih =>
    rw [List.mapM_cons]
    rcases loadItem_typed a (ht a (List.mem_cons_self _ _))
      with ⟨pa, hpa⟩ | ⟨k, hk⟩
    · rcases hb with ⟨i, hi, hm⟩
      rcases List.mem_cons.mp hi with rfl | hr
      · rcases loadItem_bad i (ht i (List.mem_cons_self _ _)) hm
          with ⟨k, hk⟩
        rw [hpa] at hk
        cases hk
      · rcases ih (fun j hj => ht j (List.mem_cons_of_mem _ hj))
          ⟨i, hr, hm⟩ with ⟨k, hk⟩
        exact ⟨k, by rw [hpa, hk]; exact rfl⟩
    · exact ⟨k, by rw [hk]; exact rfl⟩

theorem loadItems_seq (l : List (Str × Yaml)) (itemsL : List Yaml)
    (h : pyOr ((pyLookup l (lit "items")).getD .null) (.seq [])
      = .seq itemsL) :
    loadItems (pyOr ((pyLookup l (lit "items")).getD .null) (.seq []))
      = itemsL.mapM loadItem := by
  unfold loadItems
  rw [h]

theorem loadSection_typed (sec : Yaml) (h : SecTyped sec) :
    (∃ ps, loadSection sec = .ok ps)
    ∨ ∃ k, loadSection sec = .error (.missingField k) := by
  rcases h with ⟨l, rfl, ⟨itemsL, hio, hit⟩, hname⟩
  rw [loadSection_decompose, loadItems_seq l itemsL hio]
  have hnm : ∃ nm, asStr ((pyLookup l (lit "section")).getD
      (.str (lit "Section"))) = .ok nm := by
    rcases hk : pyLookup l (lit "section") with _ | v
    · exact ⟨lit "Section", rfl⟩
    · rcases hname v hk with ⟨s, rfl⟩
      exact ⟨s, rfl⟩
  rcases hnm with ⟨nm, hnm⟩
  rcases mapM_loadItem_typed itemsL hit with ⟨xs, hxs⟩ | ⟨k, hk⟩
  · left
    exact ⟨{ sectionName := nm, items := xs }, by rw [hxs, hnm]; exact rfl⟩
  · right
    exact ⟨k, by rw [hk]; exact rfl⟩

theorem loadSection_bad (sec : Yaml) (ht : SecTyped sec) (hb : SecBad sec) :
    ∃ k, loadSection sec = .error (.missingField k) := by
  rcases ht with ⟨l, rfl, ⟨itemsL, hio, hit⟩, hname⟩
  rcases hb with ⟨l', he, itemsL', hio', hbad⟩
  injection he with he'
  subst he'
  rw [hio] at hio'
  injection hio' with hio2
  subst hio2
  rw [loadSection_decompose, loadItems_seq l itemsL hio]
  rcases mapM_loadItem_bad itemsL hit hbad with ⟨k, hk⟩
  exact ⟨k, by rw [hk]; exact rfl⟩

theorem mapM_loadSection_bad (secs : List Yaml)
    (ht : ∀ s ∈ secs, SecTyped s) (hb : ∃ s ∈ secs, SecBad s) :
    ∃ k, secs.mapM loadSection = .error (.missingField k) := by
  induction secs with
  | nil =>
    rcases hb with ⟨s, hs, _⟩
    cases hs
  | cons a rest ih =>
    rw [List.mapM_cons]
    rcases loadSection_typed a (ht a (List.mem_cons_self _ _))
      with ⟨pa, hpa⟩ | ⟨k, hk⟩
    · rcases hb with ⟨s, hs, hm⟩
      rcases List.mem_cons.mp hs with rfl | hr
      · rcases loadSection_bad s (ht s (List.mem_cons_self _ _)) hm
          with ⟨k, hk⟩
        rw [hpa] at hk
        cases hk
      · rcases ih (fun j hj => ht j (List.mem_cons_of_mem _ hj))
          ⟨s, hr, hm⟩ with ⟨k, hk⟩
        exact ⟨k, by rw [hpa, hk]; exact rfl⟩
    · exact ⟨k, by rw [hk]; exact rfl⟩

theorem loadPages_seq (docL : List (Str × Yaml)) (secs : List Yaml)
    (h : pyLookup docL (lit "pages") = some (.seq secs)) :
    loadPages (.map docL) = secs.mapM loadSection := by
  rw [loadPages_decompose, h,
    show (some (Yaml.seq secs)).getD (Yaml.seq []) = Yaml.seq secs from rfl,
    pyOr_seq]

/-- C1: in any document that reaches the pages loop (its `site` part
loads, `pages` is a sequence of well-shaped section mappings) and whose
items include an entry missing the `path` or the `title` key, `load`
fails with the missing-field error (`KeyError`, the spec's
`MissingFieldError`), and no `ManualSpec` is produced. -/
theorem claim_C1_missing_field (docL : List (Str × Yaml))
    (secs : List Yaml) (st : SiteSpec)
    (hsite : loadSite (pyOr ((pyLookup docL (lit "site")).getD (.map []))
      (.map [])) = .ok st)
    (hpages : pyLookup docL (lit "pages") = some (.seq secs))
    (hsecs : ∀ sec ∈ secs, SecTyped sec)
    (hbad : ∃ sec ∈ secs, SecBad sec) :
    (∃ k, loadSpec (.map docL) = .error (.missingField k))
    ∧ ∀ m, loadSpec (.map docL) ≠ .ok m := by
  rcases mapM_loadSection_bad secs hsecs hbad with ⟨k, hk⟩
  have hout : loadSpec (.map docL) = .error (.missingField k) := by
    rw [loadSpec_decompose, hsite, loadPages_seq docL secs hpages, hk]
    exact rfl
  refine ⟨⟨k, hout⟩, ?_⟩
  intro m hm
  rw [hout] at hm
  cases hm

/-- Witness for C1: a one-section document whose only item has a
`title` but no `path` fails to load with the missing-field error. -/
theorem claim_C1_witness :
    (∃ k, loadSpec (.map [(lit "pages",
      .seq [.map [(lit "items",
        .seq [.map [(lit "title", .str (lit "X"))]])]])])
      = .error (.missingField k))
    ∧ ∀ m, loadSpec (.map [(lit "pages",
      .seq [.map [(lit "items",
        .seq [.map [(lit "title", .str (lit "X"))]])]])]) ≠ .ok m := by
  apply claim_C1_missing_field
    [(lit "pages", .seq [.map [(lit "items",
      .seq [.map [(lit "title", .str (lit "X"))]])]])]
    [.map [(lit "items", .seq [.map [(lit "title", .str (lit "X"))]])]]
    defaultSite rfl rfl
  · intro sec hsec
    rcases List.mem_cons.mp hsec with rfl | h
    · refine ⟨_, rfl, ⟨_, rfl, ?_⟩, ?_⟩
      · intro i hi
        rcases List.mem_cons.mp hi with rfl | hi2
        · refine ⟨_, rfl, ?_, ?_⟩
          · intro v hv
            exact Option.noConfusion hv
          · intro v hv
            have hv' : some (Yaml.str (lit "X")) = some v := hv
            injection hv' with h
            exact ⟨lit "X", h.symm⟩
        · exact absurd hi2 (List.not_mem_nil _)
      · intro v hv
        exact Option.noConfusion hv
    · exact absurd h (List.not_mem_nil _)
  · exact ⟨_, List.mem_cons_self _ _, _, rfl, _, rfl, _,
      List.mem_cons_self _ _, _, rfl, Or.inl rfl⟩
